import Mathlib

/-!
# Verification of the comfyui-node-organizer layout engine

A shallow embedding of the layout core of the `comfyui-node-organizer`
repository (TypeScript), together with theorems settling the claims of its
natural-language specification.

Embedding conventions:
* JavaScript numbers are modelled by `ℚ` (the layout arithmetic is plain
  field arithmetic: sums, max/min, halving, averaging); integer ids and
  counts are `Nat`.
* `Map` objects are modelled by insertion-ordered association lists
  (`AList` operations below) and `Set<number>` by insertion-ordered
  duplicate-free `List Nat`, matching JavaScript's deterministic
  insertion-order iteration.
* In-place mutation of node and group records is modelled by threading the
  canonical stores (`allNodes`, group list) through each function.
* `null`/`undefined`-able fields are `Option`; fields that are always
  present at the layout boundary (id, pos, size) are total.
* Unbounded `while` loops whose termination is not structural are given
  explicit fuel chosen to match the source's own iteration bounds; loops
  without a source bound get fuel large enough that it is never exhausted
  on inputs where the source terminates.
-/

namespace NodeOrganizer

/-! ## Association-list maps with JavaScript `Map` semantics -/

/-- Lookup in an insertion-ordered association list (JS `Map.get`). -/
def alGet {κ α : Type} [DecidableEq κ] (l : List (κ × α)) (k : κ) : Option α :=
  match l with
  | [] => none
  | (k2, v) :: rest => if k2 = k then some v else alGet rest k

/-- Insert/update in an insertion-ordered association list (JS `Map.set`):
an existing key keeps its position, a new key is appended. -/
def alSet {κ α : Type} [DecidableEq κ] (l : List (κ × α)) (k : κ) (v : α) :
    List (κ × α) :=
  match l with
  | [] => [(k, v)]
  | (k2, v2) :: rest =>
    if k2 = k then (k2, v) :: rest else (k2, v2) :: alSet rest k v

/-- JS `Map.has`. -/
def alHas {κ α : Type} [DecidableEq κ] (l : List (κ × α)) (k : κ) : Bool :=
  (alGet l k).isSome

/-- Keys in iteration (insertion) order. -/
def alKeys {κ α : Type} (l : List (κ × α)) : List κ :=
  l.map Prod.fst

/-- JS `Set.add`: append if not already present. -/
def sAdd (l : List Nat) (k : Nat) : List Nat :=
  if k ∈ l then l else l ++ [k]

/-- Update an element of a list at an index (model of mutating an array slot). -/
def listSetAt {α : Type} (l : List α) (i : Nat) (f : α → α) : List α :=
  match l, i with
  | [], _ => []
  | x :: rest, 0 => f x :: rest
  | x :: rest, Nat.succ j => x :: listSetAt rest j f

/-! ## Data model (`src/layout/types.ts`) -/

/-- A link (`LLink`): directed edge between node slots.  The payload type
tag is kept (it is layout-irrelevant, which claim C10 exercises). -/
structure LLink where
  id : Nat
  origin_id : Nat
  origin_slot : Nat
  target_id : Nat
  target_slot : Nat
  ltype : String
  deriving Repr, DecidableEq

/-- A graph node (`LGraphNode`).  Input slots carry the incoming link id
(or none); output slots carry their outgoing link ids. -/
structure LNode where
  id : Nat
  ntype : String
  title : String
  posX : ℚ
  posY : ℚ
  sizeW : ℚ
  sizeH : ℚ
  inputLinks : List (Option Nat)
  outputLinks : List (List Nat)
  pinned : Bool
  locked : Bool
  deriving Repr, DecidableEq

/-- A group (`LGraphGroup`): title (may carry a layout token) and box. -/
structure LGroup where
  id : Nat
  title : String
  posX : ℚ
  posY : ℚ
  sizeW : ℚ
  sizeH : ℚ
  deriving Repr, DecidableEq

/-- The graph handed to the layout entry points (`LGraph`).  The three
link storage formats (Map / Record / Array) are collapsed to one list,
matching the order `iterateLinks` yields them. -/
structure LGraph where
  nodes : List LNode
  groups : List LGroup
  links : List LLink
  deriving Repr, DecidableEq

/-- Layout configuration (`LayoutConfig`). -/
structure LayoutConfig where
  horizontalGap : ℚ
  verticalGap : ℚ
  groupPadding : ℚ
  startX : ℚ
  startY : ℚ
  maxIterations : Nat
  maxColumns : Nat
  maxRowWidth : ℚ
  collapseReroutes : Bool
  disconnectedGap : ℚ
  deriving Repr, DecidableEq

/-- `DEFAULT_CONFIG` from `types.ts`. -/
def DEFAULT_CONFIG : LayoutConfig :=
  { horizontalGap := 100
    verticalGap := 40
    groupPadding := 30
    startX := 100
    startY := 100
    maxIterations := 24
    maxColumns := 0
    maxRowWidth := 800
    collapseReroutes := true
    disconnectedGap := 150 }

/-- Title bar height for groups (`GROUP_TITLE_HEIGHT`). -/
def GROUP_TITLE_HEIGHT : ℚ := 50

/-! ## Node classifier (`src/layout/node-classifier.ts`) -/

/-- Result of `classifyNodes`. -/
structure ClassifiedNodes where
  connected : List Nat
  disconnected : List Nat
  reroutes : List Nat
  deriving Repr, DecidableEq

/-- The classifier's reroute test: type is `"Reroute"` or starts with
`"Reroute "`. -/
def isRerouteType (t : String) : Bool :=
  t = "Reroute" || t.startsWith "Reroute "

/-- Ids marked as having at least one incident link (the `hasLinks` set). -/
def linkEndpointIds (links : List LLink) : List Nat :=
  links.foldl (fun acc link => sAdd (sAdd acc link.origin_id) link.target_id) []

/-- One node of the classifier loop. -/
def classifyStep (hasLinks : List Nat) (acc : ClassifiedNodes) (node : LNode) :
    ClassifiedNodes :=
  if isRerouteType node.ntype then
    { acc with
      reroutes := sAdd acc.reroutes node.id
      connected := if node.id ∈ hasLinks then sAdd acc.connected node.id
        else acc.connected }
  else if node.id ∈ hasLinks then
    { acc with connected := sAdd acc.connected node.id }
  else
    { acc with disconnected := sAdd acc.disconnected node.id }

/-- `classifyNodes`: partition nodes into connected / disconnected /
reroutes from link endpoints. -/
def classifyNodes (graph : LGraph) : ClassifiedNodes :=
  graph.nodes.foldl (classifyStep (linkEndpointIds graph.links))
    { connected := [], disconnected := [], reroutes := [] }

/-- A node id has an incident link in the graph. -/
def hasIncidentLink (graph : LGraph) (id : Nat) : Prop :=
  ∃ link ∈ graph.links, link.origin_id = id ∨ link.target_id = id

instance (graph : LGraph) (id : Nat) : Decidable (hasIncidentLink graph id) := by
  unfold hasIncidentLink
  infer_instance

/-! ## Stable sorting (JavaScript `Array.prototype.sort`)

`sort` with a consistent comparator is stable (ES2019).  A stable
comparator sort is modelled by insertion sort with strict-before test
`sb`: an element is inserted after every earlier element that is not
strictly after it, so equal elements keep their original order. -/

/-- Insert `x` after every element `y` with `sb y x` (y strictly before x). -/
def insertB {α : Type} (sb : α → α → Bool) (x : α) : List α → List α
  | [] => [x]
  | y :: ys => if sb y x then y :: insertB sb x ys else x :: y :: ys

/-- Stable sort by the strict-before test `sb`. -/
def stableSortBy {α : Type} (sb : α → α → Bool) : List α → List α
  | [] => []
  | x :: xs => insertB sb x (stableSortBy sb xs)

/-! ## Reroute chain collapse (`src/layout/reroute-collapse.ts`) -/

/-- `LinkInfo` records used for chain detection. -/
structure LinkInfo where
  linkId : Nat
  originId : Nat
  originSlot : Nat
  targetId : Nat
  targetSlot : Nat
  deriving Repr, DecidableEq

/-- A collapsed reroute chain (`RerouteChain`); targets are
(node, slot) pairs. -/
structure RerouteChain where
  nodes : List Nat
  sourceNode : Nat
  sourceSlot : Nat
  targets : List (Nat × Nat)
  deriving Repr, DecidableEq

/-- `incomingLinks`: target id → link infos pointing at it, in link order. -/
def incomingLinkMap (links : List LLink) : List (Nat × List LinkInfo) :=
  links.foldl
    (fun acc link =>
      let info : LinkInfo :=
        { linkId := link.id, originId := link.origin_id,
          originSlot := link.origin_slot, targetId := link.target_id,
          targetSlot := link.target_slot }
      alSet acc link.target_id ((alGet acc link.target_id).getD [] ++ [info]))
    []

/-- `outgoingLinks`: origin id → link infos leaving it, in link order. -/
def outgoingLinkMap (links : List LLink) : List (Nat × List LinkInfo) :=
  links.foldl
    (fun acc link =>
      let info : LinkInfo :=
        { linkId := link.id, originId := link.origin_id,
          originSlot := link.origin_slot, targetId := link.target_id,
          targetSlot := link.target_slot }
      alSet acc link.origin_id ((alGet acc link.origin_id).getD [] ++ [info]))
    []

/-- One body step of `traceRerouteChain`'s scan of the outgoing links of
the current reroute: accumulates the next unvisited reroute (last one
wins, as in the source) and the non-reroute targets. -/
def traceScanOutgoing (reroutes visited : List Nat)
    (outgoing : List LinkInfo) : Option Nat × List (Nat × Nat) :=
  outgoing.foldl
    (fun acc link =>
      if link.targetId ∈ reroutes ∧ link.targetId ∉ visited then
        (some link.targetId, acc.2)
      else if link.targetId ∉ reroutes then
        (acc.1, acc.2 ++ [(link.targetId, link.targetSlot)])
      else acc)
    (none, [])

/-- The `while` loop of `traceRerouteChain`; fuel bounds the walk (each
step visits a fresh reroute, so `reroutes.length + 1` never runs out). -/
def traceLoop (reroutes : List Nat) (outgoingLinks : List (Nat × List LinkInfo)) :
    Nat → Nat → List Nat → List Nat → List (Nat × Nat) →
    List Nat × List Nat × List (Nat × Nat)
  | 0, _, visited, chainNodes, targets => (visited, chainNodes, targets)
  | Nat.succ fuel, currentId, visited, chainNodes, targets =>
    if currentId ∈ reroutes ∧ currentId ∉ visited then
      let visited2 := sAdd visited currentId
      let chainNodes2 := chainNodes ++ [currentId]
      let outgoing := (alGet outgoingLinks currentId).getD []
      if outgoing.isEmpty then (visited2, chainNodes2, targets)
      else
        let scanned := traceScanOutgoing reroutes visited2 outgoing
        let targets2 := targets ++ scanned.2
        match scanned.1 with
        | some nextId =>
          traceLoop reroutes outgoingLinks fuel nextId visited2 chainNodes2 targets2
        | none => (visited2, chainNodes2, targets2)
    else (visited, chainNodes, targets)

/-- `traceRerouteChain`: walk a chain from its first reroute, returning
the updated visited set and the chain. -/
def traceRerouteChain (startRerouteId sourceNode sourceSlot : Nat)
    (reroutes : List Nat) (outgoingLinks : List (Nat × List LinkInfo))
    (visited : List Nat) : List Nat × RerouteChain :=
  let r := traceLoop reroutes outgoingLinks (reroutes.length + 1)
    startRerouteId visited [] []
  (r.1, { nodes := r.2.1, sourceNode := sourceNode, sourceSlot := sourceSlot,
          targets := r.2.2 })

/-- `findRerouteChains`: find all collapsible chains, visiting each
reroute at most once globally. -/
def findRerouteChains (graph : LGraph) (reroutes : List Nat) :
    List RerouteChain :=
  if graph.links.isEmpty ∨ reroutes.isEmpty then []
  else
    let incoming := incomingLinkMap graph.links
    let outgoing := outgoingLinkMap graph.links
    let step := fun (acc : List Nat × List RerouteChain) (rerouteId : Nat) =>
      if rerouteId ∈ acc.1 then acc
      else
        ((alGet incoming rerouteId).getD []).foldl
          (fun (acc2 : List Nat × List RerouteChain) link =>
            if link.originId ∈ reroutes then acc2
            else
              let traced := traceRerouteChain rerouteId link.originId
                link.originSlot reroutes outgoing acc2.1
              if traced.2.nodes.length > 0 then (traced.1, acc2.2 ++ [traced.2])
              else (traced.1, acc2.2))
          acc
    (reroutes.foldl step ([], [])).2

/-- `getVirtualEdges`: source id → set of bypass target ids. -/
def getVirtualEdges (chains : List RerouteChain) : List (Nat × List Nat) :=
  chains.foldl
    (fun acc chain =>
      let cur := (alGet acc chain.sourceNode).getD []
      alSet acc chain.sourceNode
        (chain.targets.foldl (fun s t => sAdd s t.1) cur))
    []

/-- `getRerouteNodeIds`: all collapsed reroute ids. -/
def getRerouteNodeIds (chains : List RerouteChain) : List Nat :=
  chains.foldl (fun acc chain => chain.nodes.foldl sAdd acc) []

/-- A 2-D point (an entry of the `positions` map). -/
structure Pt where
  x : ℚ
  y : ℚ
  deriving Repr, DecidableEq

/-- A 2-D size (an entry of the `sizes` map). -/
structure Sz where
  w : ℚ
  h : ℚ
  deriving Repr, DecidableEq

/-- `restoreReroutePositions` applied to one chain: write the chain's
element positions into the positions map (or leave it unchanged when the
chain has no nodes, no resolvable source, or no resolvable target). -/
def restoreChain (positions : List (Nat × Pt)) (sizes : List (Nat × Sz))
    (chain : RerouteChain) : List (Nat × Pt) :=
  if chain.nodes.length = 0 ∨ chain.targets.length = 0 then positions
  else
    match alGet positions chain.sourceNode, alGet sizes chain.sourceNode with
    | some sourcePos, some sourceSize =>
      let validTargets := chain.targets.filterMap (fun t => alGet positions t.1)
      if validTargets.length = 0 then positions
      else
        let n : ℚ := validTargets.length
        let endX := (validTargets.foldl (fun s p => s + p.x) 0) / n
        let endY := (validTargets.foldl (fun s p => s + p.y) 0) / n
        let startX := sourcePos.x + sourceSize.w
        let startY := sourcePos.y + sourceSize.h / 2
        let count : ℚ := chain.nodes.length
        (chain.nodes.zip (List.range chain.nodes.length)).foldl
          (fun pos p =>
            let t : ℚ := ((p.2 : ℚ) + 1) / (count + 1)
            let rerouteId := p.1
            let px := startX + (endX - startX) * t
            let py := startY + (endY - startY) * t
            let rerouteSize := (alGet sizes rerouteId).getD { w := 90, h := 26 }
            alSet pos rerouteId
              { x := px - rerouteSize.w / 2, y := py - rerouteSize.h / 2 })
          positions
    | _, _ => positions

/-- `restoreReroutePositions`: place each chain's reroutes at evenly
spaced interpolation points; returns the updated positions map. -/
def restoreReroutePositions (chains : List RerouteChain)
    (positions : List (Nat × Pt)) (sizes : List (Nat × Sz)) :
    List (Nat × Pt) :=
  chains.foldl (fun pos chain => restoreChain pos sizes chain) positions

/-! ## Group-internal layout helpers (`src/layout/layout-utils.ts`) -/

/-- `getInternalEdges`: `(source, target)` pairs whose endpoints are both
group members, found by matching members' input link ids against the
`linkId → source member` map built from members' output slots. -/
def getInternalEdges (memberIds : List Nat) (allNodes : List (Nat × LNode)) :
    List (Nat × Nat) :=
  let linkToSource : List (Nat × Nat) :=
    memberIds.foldl
      (fun acc memberId =>
        match alGet allNodes memberId with
        | none => acc
        | some node =>
          node.outputLinks.foldl
            (fun acc2 links =>
              links.foldl (fun acc3 linkId => alSet acc3 linkId memberId) acc2)
            acc)
      []
  memberIds.foldl
    (fun edges memberId =>
      match alGet allNodes memberId with
      | none => edges
      | some node =>
        node.inputLinks.foldl
          (fun edges2 inputLink =>
            match inputLink with
            | none => edges2
            | some linkId =>
              match alGet linkToSource linkId with
              | some sourceId =>
                if sourceId ∈ memberIds then edges2 ++ [(sourceId, memberId)]
                else edges2
              | none => edges2)
          edges)
    []

/-- The Kahn loop of `assignMemberLayers`.  In-degrees are `Int` because
the source decrements with plain subtraction.  Fuel: each queue pop either
consumes an initial entry or a decrement-to-zero, so
`members + edges + 1` is never exhausted. -/
def memberLayerLoop (successors : List (Nat × List Nat)) :
    Nat → List Nat → List (Nat × Int) → List (Nat × Nat) →
    List (Nat × Nat)
  | 0, _, _, nodeLayer => nodeLayer
  | Nat.succ _, [], _, nodeLayer => nodeLayer
  | Nat.succ fuel, current :: queue, inDegree, nodeLayer =>
    let currentLayer := (alGet nodeLayer current).getD 0
    let succs := (alGet successors current).getD []
    let r := succs.foldl
      (fun (acc : List Nat × List (Nat × Int) × List (Nat × Nat)) succ =>
        let succLayer := (alGet acc.2.2 succ).getD 0
        let nodeLayer2 := alSet acc.2.2 succ (max succLayer (currentLayer + 1))
        let newInDegree := ((alGet acc.2.1 succ).getD 1) - 1
        let inDegree2 := alSet acc.2.1 succ newInDegree
        let queue2 := if newInDegree = 0 then acc.1 ++ [succ] else acc.1
        (queue2, inDegree2, nodeLayer2))
      (queue, inDegree, nodeLayer)
    memberLayerLoop successors fuel r.1 r.2.1 r.2.2

/-- `assignMemberLayers`: longest-path layering of group members over the
internal edges; returns the member ids grouped by layer (the source
returns node references, used downstream only through the node store). -/
def assignMemberLayers (memberIds : List Nat) (edges : List (Nat × Nat))
    (allNodes : List (Nat × LNode)) : List (List Nat) :=
  let successors0 : List (Nat × List Nat) :=
    memberIds.foldl (fun acc id => alSet acc id []) []
  let inDegree0 : List (Nat × Int) :=
    memberIds.foldl (fun acc id => alSet acc id 0) []
  let graphAcc := edges.foldl
    (fun (acc : List (Nat × List Nat) × List (Nat × Int)) e =>
      (alSet acc.1 e.1 ((alGet acc.1 e.1).getD [] ++ [e.2]),
       alSet acc.2 e.2 ((alGet acc.2 e.2).getD 0 + 1)))
    (successors0, inDegree0)
  let successors := graphAcc.1
  let inDegree := graphAcc.2
  let start := memberIds.foldl
    (fun (acc : List Nat × List (Nat × Nat)) id =>
      if (alGet inDegree id).getD 0 = 0 then
        (acc.1 ++ [id], alSet acc.2 id 0)
      else acc)
    ([], [])
  let nodeLayer0 := memberLayerLoop successors
    (memberIds.length + edges.length + 1) start.1 inDegree start.2
  let nodeLayer := memberIds.foldl
    (fun acc id => if alHas acc id then acc else alSet acc id 0) nodeLayer0
  let maxLayer := nodeLayer.foldl (fun m kv => max m kv.2) 0
  (List.range (maxLayer + 1)).map
    (fun layerIdx =>
      memberIds.filter
        (fun id =>
          alHas allNodes id ∧ (alGet nodeLayer id).getD 0 = layerIdx))

/-! ## Bin packing (`src/layout/bin-pack.ts`) -/

/-- A packed row (`PackedRow`). -/
structure PackedRow where
  nodes : List Nat
  height : ℚ
  yOffset : ℚ
  width : ℚ
  deriving Repr, DecidableEq

/-- Node size info for packing (`NodeSize`). -/
structure NodeSize where
  id : Nat
  width : ℚ
  height : ℚ
  deriving Repr, DecidableEq

/-- `packVertically`: one node per row. -/
def packVertically (nodeIds : List Nat) (sizes : List (Nat × Sz))
    (verticalGap : ℚ) : List PackedRow :=
  (nodeIds.foldl
    (fun (acc : List PackedRow × ℚ) id =>
      let size := alGet sizes id
      let height := (size.map Sz.h).getD 100
      let width := (size.map Sz.w).getD 200
      (acc.1 ++ [{ nodes := [id], height := height, yOffset := acc.2,
                   width := width }],
       acc.2 + height + verticalGap))
    ([], 0)).1

/-- A working row of `packByWidth` before conversion. -/
structure WorkRow where
  nodes : List NodeSize
  height : ℚ
  currentWidth : ℚ
  deriving Repr, DecidableEq

/-- The fit test of `packByWidth`: the widened row stays within the
budget and the heights are within a factor-2 band (ratio computed as in
the source, with a zero-height row counting as compatible). -/
def rowFits (row : WorkRow) (node : NodeSize) (maxRowWidth horizontalGap : ℚ) :
    Bool :=
  let newWidth := row.currentWidth + horizontalGap + node.width
  let heightRatio := if row.height > 0 then node.height / row.height else 1
  newWidth ≤ maxRowWidth ∧ (1 / 2 : ℚ) ≤ heightRatio ∧ heightRatio ≤ 2

/-- Place a node into the first fitting row, or report failure. -/
def placeFirstFit (node : NodeSize) (maxRowWidth horizontalGap : ℚ) :
    List WorkRow → Option (List WorkRow)
  | [] => none
  | row :: rest =>
    if rowFits row node maxRowWidth horizontalGap then
      some ({ nodes := row.nodes ++ [node],
              height := max row.height node.height,
              currentWidth := row.currentWidth + horizontalGap + node.width }
            :: rest)
    else
      (placeFirstFit node maxRowWidth horizontalGap rest).map
        (fun rows => row :: rows)

/-- Convert working rows to `PackedRow`s, assigning y offsets. -/
def rowsToPacked (rows : List WorkRow) (verticalGap : ℚ) : List PackedRow :=
  (rows.foldl
    (fun (acc : List PackedRow × ℚ) row =>
      (acc.1 ++ [{ nodes := row.nodes.map NodeSize.id, height := row.height,
                   yOffset := acc.2, width := row.currentWidth }],
       acc.2 + row.height + verticalGap))
    ([], 0)).1

/-- `packByWidth`: First-Fit over already height-sorted nodes, then rows
sorted by height descending (stable), then y offsets. -/
def packByWidth (nodeSizes : List NodeSize) (maxRowWidth horizontalGap
    verticalGap : ℚ) : List PackedRow :=
  let rows := nodeSizes.foldl
    (fun rows node =>
      match placeFirstFit node maxRowWidth horizontalGap rows with
      | some rows2 => rows2
      | none => rows ++ [{ nodes := [node], height := node.height,
                           currentWidth := node.width }])
    []
  let sorted := stableSortBy (fun a b => b.height < a.height) rows
  rowsToPacked sorted verticalGap

/-- `packFixedColumns`: chunk the (height-sorted) nodes into rows of
`columnCount`, then assign y offsets. -/
def packFixedColumns (nodeSizes : List NodeSize) (columnCount : Nat)
    (verticalGap : ℚ) : List PackedRow :=
  let step := fun (acc : List WorkRow × List NodeSize) node =>
    let currentRow := acc.2 ++ [node]
    if currentRow.length ≥ columnCount then
      (acc.1 ++ [{ nodes := currentRow,
                   height := currentRow.foldl (fun m n => max m n.height) 0,
                   currentWidth := currentRow.foldl (fun s n => s + n.width) 0 }],
       [])
    else (acc.1, currentRow)
  let r := nodeSizes.foldl step ([], [])
  let rows :=
    if r.2.length > 0 then
      r.1 ++ [{ nodes := r.2,
                height := r.2.foldl (fun m n => max m n.height) 0,
                currentWidth := r.2.foldl (fun s n => s + n.width) 0 }]
    else r.1
  rowsToPacked rows verticalGap

/-- `packNodesIntoRows`: dispatch on the column policy; auto and fixed
modes sort by height descending first (stable, as JS sort). -/
def packNodesIntoRows (nodeIds : List Nat) (sizes : List (Nat × Sz))
    (config : LayoutConfig) : List PackedRow :=
  if nodeIds.isEmpty then []
  else if config.maxColumns = 1 then
    packVertically nodeIds sizes config.verticalGap
  else
    let nodeSizes := nodeIds.map
      (fun id =>
        let size := alGet sizes id
        { id := id, width := (size.map Sz.w).getD 200,
          height := (size.map Sz.h).getD 100 : NodeSize })
    let sorted := stableSortBy (fun a b => b.height < a.height) nodeSizes
    if config.maxColumns ≥ 2 then
      packFixedColumns sorted config.maxColumns config.verticalGap
    else
      packByWidth sorted config.maxRowWidth config.horizontalGap
        config.verticalGap

/-- `getPackedHeight`. -/
def getPackedHeight (rows : List PackedRow) : ℚ :=
  match rows.getLast? with
  | none => 0
  | some lastRow => lastRow.yOffset + lastRow.height

/-- `getPackedWidth`. -/
def getPackedWidth (rows : List PackedRow) : ℚ :=
  rows.foldl (fun m r => max m r.width) 0

/-! ## Layout state (`types.ts`) and graph builder
(`src/layout/graph-builder.ts`)

Object references of the source (`LayoutGroup` pointers, shared mutable
node records) are modelled by indices into canonical stores threaded
through the pipeline: `allNodes` (id-keyed node store) and `groupBoxes`
(the group boxes, index-aligned with `graph.groups`).  Subgraph I/O
nodes are not modelled (absent `inputNode`/`outputNode`, so those code
paths are no-ops). -/

/-- Per-run layout node record (`LayoutNode`); `layer` starts at `-1`. -/
structure LayoutNode where
  id : Nat
  layer : Int
  orderInLayer : Nat
  predecessors : List Nat
  successors : List Nat
  width : ℚ
  height : ℚ
  x : ℚ
  y : ℚ
  isGroupRepresentative : Bool
  groupIdx : Option Nat
  deriving Repr, DecidableEq

/-- A layer of the condensed DAG (`Layer`); nodes are stored as ids into
the layout-node map (the source shares mutable records). -/
structure Layer where
  index : Int
  nodeIds : List Nat
  x : ℚ
  maxWidth : ℚ
  deriving Repr, DecidableEq

/-- Group bookkeeping (`LayoutGroup`); `groupIdx` indexes the group store,
`childIdxs`/`parentIdx` encode the containment forest. -/
structure LayoutGroup where
  groupIdx : Nat
  memberIds : List Nat
  childIdxs : List Nat
  parentIdx : Option Nat
  depth : Nat
  width : ℚ
  height : ℚ
  deriving Repr, DecidableEq

/-- The pipeline state (`LayoutState`). -/
structure LayoutState where
  nodes : List (Nat × LayoutNode)
  layers : List Layer
  layoutGroups : List LayoutGroup
  groupBoxes : List LGroup
  config : LayoutConfig
  nodeToGroup : List (Nat × Nat)
  groupRepresentatives : List (Nat × Nat)
  allNodes : List (Nat × LNode)
  groupsByDepth : List (List Nat)
  disconnectedNodes : List Nat
  rerouteChains : List RerouteChain
  deriving Repr, DecidableEq

/-- `groupContainsGroup`: outer box fully contains inner box. -/
def groupContainsGroup (outer inner : LGroup) : Bool :=
  inner.posX ≥ outer.posX ∧ inner.posY ≥ outer.posY ∧
  inner.posX + inner.sizeW ≤ outer.posX + outer.sizeW ∧
  inner.posY + inner.sizeH ≤ outer.posY + outer.sizeH

/-- `nodeInsideGroup`: the node's origin lies in the group's content area
(title bar excluded). -/
def nodeInsideGroup (node : LNode) (group : LGroup) : Bool :=
  let gx := group.posX
  let gy := group.posY + GROUP_TITLE_HEIGHT
  let gw := group.sizeW
  let gh := group.sizeH - GROUP_TITLE_HEIGHT
  node.posX ≥ gx ∧ node.posX < gx + gw ∧ node.posY ≥ gy ∧ node.posY < gy + gh

/-- Parent search of `buildGroupHierarchy`: smallest containing group
(strictly smaller area wins; the first smallest in group order is kept). -/
def findBestParent (boxes : List LGroup) (innerIdx : Nat) : Option Nat :=
  match boxes.get? innerIdx with
  | none => none
  | some inner =>
    (List.range boxes.length).foldl
      (fun best outerIdx =>
        if outerIdx = innerIdx then best
        else
          match boxes.get? outerIdx with
          | none => best
          | some outer =>
            if groupContainsGroup outer inner then
              let area := outer.sizeW * outer.sizeH
              match best with
              | none => some (outerIdx, area)
              | some b => if area < b.2 then some (outerIdx, area) else best
            else best)
      (none : Option (Nat × ℚ))
    |>.map Prod.fst

/-- BFS depth assignment of `buildGroupHierarchy`; groups on a parent
cycle are never enqueued and keep depth 0, as in the source. -/
def depthBFS (childIdxs : List (List Nat)) :
    Nat → List (Nat × Nat) → List (Nat × Nat) → List (Nat × Nat)
  | 0, _, depths => depths
  | Nat.succ _, [], depths => depths
  | Nat.succ fuel, (idx, d) :: queue, depths =>
    let depths2 := alSet depths idx d
    let children := (childIdxs.getD idx []).map (fun c => (c, d + 1))
    depthBFS childIdxs fuel (queue ++ children) depths2

/-- `buildGroupHierarchy`: parent, children, and depth for every group. -/
def buildGroupHierarchy (boxes : List LGroup) : List LayoutGroup :=
  let n := boxes.length
  let parentOf := (List.range n).map (findBestParent boxes)
  let childrenOf := (List.range n).map
    (fun i => (List.range n).filter (fun j => parentOf.getD j none = some i))
  let roots := ((List.range n).filter
    (fun i => parentOf.getD i none = none)).map (fun i => (i, 0))
  let depths := depthBFS childrenOf (n + 1) roots []
  (List.range n).map
    (fun i =>
      { groupIdx := i
        memberIds := []
        childIdxs := childrenOf.getD i []
        parentIdx := parentOf.getD i none
        depth := (alGet depths i).getD 0
        width := 0
        height := 0 })

/-- `getTopLevelGroup`: walk the parent chain; fuel covers any forest
(the source loops forever on a parent cycle, which fuel exhaustion
approximates by stopping). -/
def getTopLevelGroup (groups : List LayoutGroup) : Nat → Nat → Nat
  | 0, idx => idx
  | Nat.succ fuel, idx =>
    match groups.get? idx with
    | none => idx
    | some g =>
      match g.parentIdx with
      | none => idx
      | some p => getTopLevelGroup groups fuel p

/-- `calculateGroupMemberDimensions`: content size of a group's direct
members — layer-aware when they have internal links, vertical stacking
otherwise. -/
def calculateGroupMemberDimensions (memberIds : List Nat)
    (allNodes : List (Nat × LNode)) (config : LayoutConfig) : ℚ × ℚ :=
  let memberNodes := memberIds.filterMap (alGet allNodes)
  if memberNodes.isEmpty then (0, 0)
  else
    let edges := getInternalEdges memberIds allNodes
    if edges.length > 0 then
      let layers := assignMemberLayers memberIds edges allNodes
      let r := layers.foldl
        (fun (acc : ℚ × ℚ) layer =>
          if layer.isEmpty then acc
          else
            let layerMaxWidth := layer.foldl
              (fun m id => max m (((alGet allNodes id).map LNode.sizeW).getD 200)) 0
            let layerHeight0 := layer.foldl
              (fun s id =>
                s + ((alGet allNodes id).map LNode.sizeH).getD 100 +
                  config.verticalGap) 0
            let layerHeight := if layerHeight0 > 0 then
              layerHeight0 - config.verticalGap else layerHeight0
            (acc.1 + layerMaxWidth + config.horizontalGap,
             max acc.2 layerHeight))
        (0, 0)
      let totalWidth := if r.1 > 0 then r.1 - config.horizontalGap else r.1
      (totalWidth, r.2)
    else
      let maxWidth := memberNodes.foldl (fun m node => max m node.sizeW) 0
      let totalHeight0 := memberNodes.foldl
        (fun s node => s + node.sizeH + config.verticalGap) 0
      let totalHeight := if totalHeight0 > 0 then
        totalHeight0 - config.verticalGap else totalHeight0
      (maxWidth, totalHeight)

/-- Fifth pass of the builder: group sizes bottom-up (deepest first). -/
def computeGroupSizes (groupsByDepth : List (List Nat))
    (allNodes : List (Nat × LNode)) (config : LayoutConfig)
    (layoutGroups : List LayoutGroup) : List LayoutGroup :=
  (List.range groupsByDepth.length).reverse.foldl
    (fun lgs depth =>
      (groupsByDepth.getD depth []).foldl
        (fun lgs2 gidx =>
          match lgs2.get? gidx with
          | none => lgs2
          | some lg =>
            let dims := calculateGroupMemberDimensions lg.memberIds allNodes
              config
            let memberHeight := dims.2
            let acc := lg.childIdxs.foldl
              (fun (a : ℚ × ℚ) cidx =>
                match lgs2.get? cidx with
                | none => a
                | some child =>
                  (max a.1 child.width,
                   a.2 + child.height + config.verticalGap))
              (dims.1, 0)
            let childGroupsHeight := acc.2
            let totalHeight0 := memberHeight +
              (if memberHeight > 0 ∧ childGroupsHeight > 0 then
                config.verticalGap else 0) + childGroupsHeight
            listSetAt lgs2 gidx
              (fun g =>
                { g with
                  width := acc.1 + config.groupPadding * 2
                  height := totalHeight0 + config.groupPadding * 2 +
                    GROUP_TITLE_HEIGHT }))
        lgs)
    layoutGroups

/-- Redirect a link endpoint to its top-level group representative
(`groupRepresentatives.get(topLevel)`); `none` models the undefined
lookup that makes the source skip the edge. -/
def redirectEndpoint (nodeToGroup : List (Nat × Nat))
    (layoutGroups : List LayoutGroup) (reps : List (Nat × Nat)) (id : Nat) :
    Option Nat :=
  match alGet nodeToGroup id with
  | none => some id
  | some gidx => alGet reps (getTopLevelGroup layoutGroups
      (layoutGroups.length + 1) gidx)

/-- Top-level group index of a node's group, if the node is grouped. -/
def topGroupOf (nodeToGroup : List (Nat × Nat))
    (layoutGroups : List LayoutGroup) (id : Nat) : Option Nat :=
  (alGet nodeToGroup id).map
    (fun gidx => getTopLevelGroup layoutGroups (layoutGroups.length + 1) gidx)

/-- Add a directed edge to the layout-node map with the `includes`
dedup of the source. -/
def addAdjacency (nodes : List (Nat × LayoutNode)) (sourceId targetId : Nat) :
    List (Nat × LayoutNode) :=
  match alGet nodes sourceId, alGet nodes targetId with
  | some sourceNode, some _ =>
    let nodes2 :=
      if targetId ∈ sourceNode.successors then nodes
      else alSet nodes sourceId
        { sourceNode with successors := sourceNode.successors ++ [targetId] }
    match alGet nodes2 targetId with
    | some tn =>
      if sourceId ∈ tn.predecessors then nodes2
      else alSet nodes2 targetId
        { tn with predecessors := tn.predecessors ++ [sourceId] }
    | none => nodes2
  | _, _ => nodes

/-- `buildLayoutGraph`: classification, reroute collapse, group
hierarchy and sizes, representative substitution, and adjacency. -/
def buildLayoutGraph (graph : LGraph) (config : LayoutConfig) : LayoutState :=
  let allNodes := graph.nodes.foldl (fun acc n => alSet acc n.id n) []
  let classified := classifyNodes graph
  let disconnectedNodes := classified.disconnected
  let rerouteChains :=
    if config.collapseReroutes ∧ classified.reroutes.length > 0 then
      findRerouteChains graph classified.reroutes
    else []
  let collapsedRerouteIds := getRerouteNodeIds rerouteChains
  let layoutGroups0 := buildGroupHierarchy graph.groups
  let memberAssign := allNodes.foldl
    (fun (acc : List LayoutGroup × List (Nat × Nat)) kv =>
      let node := kv.2
      let best := (List.range acc.1.length).foldl
        (fun (b : Option (Nat × Nat)) gidx =>
          match graph.groups.get? gidx, acc.1.get? gidx with
          | some box, some lg =>
            if nodeInsideGroup node box then
              match b with
              | none => some (gidx, lg.depth)
              | some bb => if lg.depth > bb.2 then some (gidx, lg.depth) else b
            else b
          | _, _ => b)
        none
      match best with
      | none => acc
      | some bg =>
        (listSetAt acc.1 bg.1
          (fun lg => { lg with memberIds := sAdd lg.memberIds kv.1 }),
         alSet acc.2 kv.1 bg.1))
    (layoutGroups0, [])
  let layoutGroups1 := memberAssign.1
  let nodeToGroup := memberAssign.2
  let maxDepth := layoutGroups1.foldl (fun m g => max m g.depth) 0
  let groupsByDepth := (List.range (maxDepth + 1)).map
    (fun d =>
      ((List.range layoutGroups1.length).filter
        (fun i => (layoutGroups1.get? i).map LayoutGroup.depth = some d)))
  let layoutGroups := computeGroupSizes groupsByDepth allNodes config
    layoutGroups1
  let nodeBuild := allNodes.foldl
    (fun (acc : List (Nat × LayoutNode) × List (Nat × Nat)) kv =>
      let id := kv.1
      let node := kv.2
      if id ∈ disconnectedNodes then acc
      else if id ∈ collapsedRerouteIds then acc
      else
        match alGet nodeToGroup id with
        | some gidx =>
          let topIdx := getTopLevelGroup layoutGroups
            (layoutGroups.length + 1) gidx
          if alHas acc.2 topIdx then acc
          else
            let topGroup := layoutGroups.get? topIdx
            (alSet acc.1 id
              { id := id, layer := -1, orderInLayer := 0,
                predecessors := [], successors := [],
                width := (topGroup.map LayoutGroup.width).getD 0,
                height := (topGroup.map LayoutGroup.height).getD 0,
                x := 0, y := 0, isGroupRepresentative := true,
                groupIdx := some topIdx },
             alSet acc.2 topIdx id)
        | none =>
          (alSet acc.1 id
            { id := id, layer := -1, orderInLayer := 0,
              predecessors := [], successors := [],
              width := node.sizeW, height := node.sizeH,
              x := 0, y := 0, isGroupRepresentative := false,
              groupIdx := none },
           acc.2))
    ([], [])
  let groupRepresentatives := nodeBuild.2
  let nodes1 := graph.links.foldl
    (fun nodes link =>
      if link.origin_id ∈ collapsedRerouteIds ∨
          link.target_id ∈ collapsedRerouteIds then nodes
      else
        let sourceTop := topGroupOf nodeToGroup layoutGroups link.origin_id
        let targetTop := topGroupOf nodeToGroup layoutGroups link.target_id
        match sourceTop, targetTop with
        | some st, some tt =>
          if st = tt then nodes
          else
            match alGet groupRepresentatives st,
                alGet groupRepresentatives tt with
            | some s, some t => addAdjacency nodes s t
            | _, _ => nodes
        | some st, none =>
          match alGet groupRepresentatives st with
          | some s => addAdjacency nodes s link.target_id
          | none => nodes
        | none, some tt =>
          match alGet groupRepresentatives tt with
          | some t => addAdjacency nodes link.origin_id t
          | none => nodes
        | none, none => addAdjacency nodes link.origin_id link.target_id)
    nodeBuild.1
  let nodes2 :=
    if rerouteChains.length > 0 then
      (getVirtualEdges rerouteChains).foldl
        (fun nodes kv =>
          let sourceId := kv.1
          let sourceTop := topGroupOf nodeToGroup layoutGroups sourceId
          let effSource := match sourceTop with
            | some st => alGet groupRepresentatives st
            | none => some sourceId
          match effSource with
          | none => nodes
          | some s =>
            if alHas nodes s then
              kv.2.foldl
                (fun nds targetId =>
                  let targetTop := topGroupOf nodeToGroup layoutGroups
                    targetId
                  let effTarget := match targetTop with
                    | some tt => alGet groupRepresentatives tt
                    | none => some targetId
                  match effTarget with
                  | none => nds
                  | some t =>
                    if ¬ alHas nds t then nds
                    else
                      match sourceTop, targetTop with
                      | some st, some tt =>
                        if st = tt then nds else addAdjacency nds s t
                      | _, _ => addAdjacency nds s t)
                nodes
            else nodes)
        nodes1
    else nodes1
  { nodes := nodes2
    layers := []
    layoutGroups := layoutGroups
    groupBoxes := graph.groups
    config := config
    nodeToGroup := nodeToGroup
    groupRepresentatives := groupRepresentatives
    allNodes := allNodes
    groupsByDepth := groupsByDepth
    disconnectedNodes := disconnectedNodes
    rerouteChains := rerouteChains }

/-! ## Layer assignment (`src/layout/layer-assign.ts`) -/

/-- The Kahn loop of `assignLayers` over the layout-node map.  An id in
the queue that is missing from the map is skipped (in the source this is
unreachable: adjacency is only built between ids present in the map).
In-degrees are `Int` (`(inDegree.get(succId) ?? 1) - 1`). -/
def kahnLoop (nodes : List (Nat × LayoutNode)) :
    Nat → List Nat → List (Nat × Int) → List Nat → List Nat
  | 0, _, _, order => order
  | Nat.succ _, [], _, order => order
  | Nat.succ fuel, nodeId :: queue, inDegree, order =>
    let order2 := order ++ [nodeId]
    match alGet nodes nodeId with
    | none => kahnLoop nodes fuel queue inDegree order2
    | some node =>
      let r := node.successors.foldl
        (fun (acc : List Nat × List (Nat × Int)) succId =>
          let deg := ((alGet acc.2 succId).getD 1) - 1
          let inDegree2 := alSet acc.2 succId deg
          let queue2 := if deg = 0 then acc.1 ++ [succId] else acc.1
          (queue2, inDegree2))
        (queue, inDegree)
      kahnLoop nodes fuel r.1 r.2 order2

/-- The topological order computed by `assignLayers`, including residual
(cyclic) ids force-appended at the end. -/
def layerOrder (nodes : List (Nat × LayoutNode)) : List Nat :=
  let start := nodes.foldl
    (fun (acc : List (Nat × Int) × List Nat) kv =>
      (alSet acc.1 kv.1 (kv.2.predecessors.length : Int),
       if kv.2.predecessors.length = 0 then acc.2 ++ [kv.1] else acc.2))
    ([], [])
  let fuel := nodes.length +
    nodes.foldl (fun s kv => s + kv.2.successors.length) 0 + 1
  let order := kahnLoop nodes fuel start.2 start.1 []
  nodes.foldl
    (fun ord kv => if kv.1 ∈ ord then ord else ord ++ [kv.1])
    order

/-- The layer value one assignment step computes: sources get 0, others
`1 + max` over predecessors with an already assigned (`≥ 0`) layer,
defaulting to 0. -/
def layerVal (nds : List (Nat × LayoutNode)) (node : LayoutNode) : Int :=
  if node.predecessors.length = 0 then 0
  else
    node.predecessors.foldl
      (fun m predId =>
        match alGet nds predId with
        | some pred => if pred.layer ≥ 0 then max m (pred.layer + 1) else m
        | none => m)
      0

/-- One step of the longest-path pass: assign `nodeId` its layer. -/
def layerStep (nds : List (Nat × LayoutNode)) (nodeId : Nat) :
    List (Nat × LayoutNode) :=
  match alGet nds nodeId with
  | none => nds
  | some node => alSet nds nodeId { node with layer := layerVal nds node }

/-- The longest-path assignment pass of `assignLayers`: process ids in
`order`, sources get 0, others get `1 + max` over predecessors with an
already assigned (`≥ 0`) layer. -/
def assignLayerValues (order : List Nat) (nodes : List (Nat × LayoutNode)) :
    List (Nat × LayoutNode) :=
  order.foldl layerStep nodes

/-- `assignLayers`: topological order, longest-path layers, negative-layer
fixup, and layer structures sorted by index with ids ordered by id. -/
def assignLayers (state : LayoutState) : LayoutState :=
  let order := layerOrder state.nodes
  let nodes1 := assignLayerValues order state.nodes
  let nodes2 := nodes1.map
    (fun kv => if kv.2.layer < 0 then (kv.1, { kv.2 with layer := 0 }) else kv)
  let layerMap : List (Int × List Nat) := nodes2.foldl
    (fun lm kv => alSet lm kv.2.layer ((alGet lm kv.2.layer).getD [] ++ [kv.1]))
    []
  let sortedIndices := stableSortBy (fun a b => a < b) (alKeys layerMap)
  let build := sortedIndices.foldl
    (fun (acc : List Layer × List (Nat × LayoutNode)) index =>
      let layerIds := (alGet layerMap index).getD []
      let sortedIds := stableSortBy (fun a b => a < b) layerIds
      let nodes3 := (sortedIds.zip (List.range sortedIds.length)).foldl
        (fun nds p =>
          match alGet nds p.1 with
          | some n => alSet nds p.1 { n with orderInLayer := p.2 }
          | none => nds)
        acc.2
      let maxWidth := sortedIds.foldl
        (fun m id => max m (((alGet nodes3 id).map LayoutNode.width).getD 0))
        100
      (acc.1 ++ [{ index := index, nodeIds := sortedIds, x := 0,
                   maxWidth := maxWidth }], nodes3))
    ([], nodes2)
  { state with nodes := build.2, layers := build.1 }

/-! ## Crossing minimization (`src/layout/ordering.ts`) -/

/-- Recompute the cumulative height position of each node of one layer
(`updateHeightPositions` body). -/
def layerHeightPositions (nodes : List (Nat × LayoutNode)) (layer : Layer)
    (verticalGap : ℚ) (positions : List (Nat × ℚ)) : List (Nat × ℚ) :=
  (layer.nodeIds.foldl
    (fun (acc : List (Nat × ℚ) × ℚ) id =>
      let h := ((alGet nodes id).map LayoutNode.height).getD 0
      (alSet acc.1 id (acc.2 + h / 2), acc.2 + h + verticalGap))
    (positions, 0)).1

/-- `updateHeightPositions` over all layers. -/
def updateHeightPositions (nodes : List (Nat × LayoutNode))
    (layers : List Layer) (verticalGap : ℚ) : List (Nat × ℚ) :=
  layers.foldl (fun pos layer => layerHeightPositions nodes layer verticalGap pos)
    []

/-- The barycenter of one node for a sweep: height-weighted centroid of
its neighbours in the adjacent layer (predecessors for forward sweeps,
successors for backward ones), with the source's fallbacks. -/
def sweepBarycenter (nodes : List (Nat × LayoutNode))
    (heightPositions : List (Nat × ℚ)) (adjacentLayer : Int)
    (neighbors : LayoutNode → List Nat) (node : LayoutNode) : ℚ :=
  if (neighbors node).length > 0 then
    let r := (neighbors node).foldl
      (fun (acc : ℚ × Nat) nid =>
        match alGet nodes nid with
        | some nb =>
          if nb.layer = adjacentLayer then
            (acc.1 + ((alGet heightPositions nid).getD (nb.orderInLayer : ℚ)),
             acc.2 + 1)
          else acc
        | none => acc)
      (0, 0)
    if r.2 > 0 then r.1 / (r.2 : ℚ)
    else (alGet heightPositions node.id).getD 0
  else (alGet heightPositions node.id).getD 0

/-- Resort one layer by barycenter (ties by id), reassign
`orderInLayer`, and refresh that layer's height positions.  Returns the
updated stores and whether the order changed. -/
def sweepLayer (adjacentLayer : Int) (neighbors : LayoutNode → List Nat)
    (verticalGap : ℚ) (layerIdx : Nat)
    (st : List (Nat × LayoutNode) × List Layer × List (Nat × ℚ) × Bool) :
    List (Nat × LayoutNode) × List Layer × List (Nat × ℚ) × Bool :=
  let nodes := st.1
  let layers := st.2.1
  let heightPositions := st.2.2.1
  match layers.get? layerIdx with
  | none => st
  | some currLayer =>
    let barys : List (Nat × ℚ) := currLayer.nodeIds.foldl
      (fun acc id =>
        match alGet nodes id with
        | some n => alSet acc id
            (sweepBarycenter nodes heightPositions adjacentLayer neighbors n)
        | none => acc)
      []
    let sortedIds := stableSortBy
      (fun a b =>
        let aBar := (alGet barys a).getD 0
        let bBar := (alGet barys b).getD 0
        aBar < bBar ∨ (aBar = bBar ∧ a < b))
      currLayer.nodeIds
    let nodes2 := (sortedIds.zip (List.range sortedIds.length)).foldl
      (fun nds p =>
        match alGet nds p.1 with
        | some n => alSet nds p.1 { n with orderInLayer := p.2 }
        | none => nds)
      nodes
    let layers2 := listSetAt layers layerIdx
      (fun l => { l with nodeIds := sortedIds })
    let hp2 := layerHeightPositions nodes2
      { currLayer with nodeIds := sortedIds } verticalGap heightPositions
    let improved := st.2.2.2 ∨ sortedIds ≠ currLayer.nodeIds
    (nodes2, layers2, hp2, improved)

/-- `sweepForward`: layers 1.. reordered by predecessor barycenters. -/
def sweepForward (verticalGap : ℚ)
    (st : List (Nat × LayoutNode) × List Layer × List (Nat × ℚ)) :
    (List (Nat × LayoutNode) × List Layer × List (Nat × ℚ)) × Bool :=
  let n := st.2.1.length
  let r := ((List.range n).drop 1).foldl
    (fun acc (i : Nat) =>
      sweepLayer ((i : Int) - 1) LayoutNode.predecessors verticalGap i acc)
    (st.1, st.2.1, st.2.2, false)
  ((r.1, r.2.1, r.2.2.1), r.2.2.2)

/-- `sweepBackward`: layers n-2 .. 0 reordered by successor barycenters. -/
def sweepBackward (verticalGap : ℚ)
    (st : List (Nat × LayoutNode) × List Layer × List (Nat × ℚ)) :
    (List (Nat × LayoutNode) × List Layer × List (Nat × ℚ)) × Bool :=
  let n := st.2.1.length
  let r := (((List.range n).take (n - 1)).reverse).foldl
    (fun acc (i : Nat) =>
      sweepLayer ((i : Int) + 1) LayoutNode.successors verticalGap i acc)
    (st.1, st.2.1, st.2.2, false)
  ((r.1, r.2.1, r.2.2.1), r.2.2.2)

/-- The alternating sweep loop of `minimizeCrossings`. -/
def sweepIterate (verticalGap : ℚ) :
    Nat → Nat →
    (List (Nat × LayoutNode) × List Layer × List (Nat × ℚ)) →
    List (Nat × LayoutNode) × List Layer × List (Nat × ℚ)
  | 0, _, st => st
  | Nat.succ fuel, iter, st =>
    let r := if iter % 2 = 0 then sweepForward verticalGap st
      else sweepBackward verticalGap st
    if r.2 then sweepIterate verticalGap fuel (iter + 1) r.1 else r.1

/-- `minimizeCrossings`: initial tall-first ordering, then bounded
alternating barycenter sweeps. -/
def minimizeCrossings (state : LayoutState) : LayoutState :=
  if state.layers.length < 2 then state
  else
    let init := state.layers.foldl
      (fun (acc : List (Nat × LayoutNode) × List Layer) layer =>
        let sortedIds := stableSortBy
          (fun a b =>
            (((alGet acc.1 b).map LayoutNode.height).getD 0 : ℚ) <
              ((alGet acc.1 a).map LayoutNode.height).getD 0)
          layer.nodeIds
        let nodes2 := (sortedIds.zip (List.range sortedIds.length)).foldl
          (fun nds p =>
            match alGet nds p.1 with
            | some n => alSet nds p.1 { n with orderInLayer := p.2 }
            | none => nds)
          acc.1
        (nodes2, acc.2 ++ [{ layer with nodeIds := sortedIds }]))
      (state.nodes, [])
    let hp := updateHeightPositions init.1 init.2 state.config.verticalGap
    let r := sweepIterate state.config.verticalGap state.config.maxIterations 0
      (init.1, init.2, hp)
    { state with nodes := r.1, layers := r.2.1 }

/-! ## Positioning (`src/layout/positioning.ts`) -/

/-- `getDisconnectedZoneWidth`: widest disconnected node plus the
configured gap (0 when there are none). -/
def getDisconnectedZoneWidth (state : LayoutState) : ℚ :=
  if state.disconnectedNodes.isEmpty then 0
  else
    let maxWidth := state.disconnectedNodes.foldl
      (fun m id =>
        match alGet state.allNodes id with
        | some node => max m node.sizeW
        | none => m)
      0
    maxWidth + state.config.disconnectedGap

/-- `assignLayerXPositions`: layer x offsets left to right, shifted by
the disconnected zone. -/
def assignLayerXPositions (state : LayoutState) : LayoutState :=
  let zone := getDisconnectedZoneWidth state
  let r := state.layers.foldl
    (fun (acc : List Layer × ℚ) layer =>
      (acc.1 ++ [{ layer with x := acc.2 }],
       acc.2 + layer.maxWidth + state.config.horizontalGap))
    ([], state.config.startX + zone)
  { state with layers := r.1 }

/-- `assignNodeYPositions` for one layer: group representatives first at
full width, then bin-packed standalone rows dodging the reserved group
regions. -/
def assignLayerYPositions (config : LayoutConfig) (layer : Layer)
    (nodes : List (Nat × LayoutNode)) : List (Nat × LayoutNode) × Layer :=
  let isRep := fun id =>
    ((alGet nodes id).map LayoutNode.isGroupRepresentative).getD false
  let groupIds := layer.nodeIds.filter (fun id => isRep id)
  let standaloneIds := layer.nodeIds.filter (fun id => !(isRep id))
  let placed := groupIds.foldl
    (fun (acc : List (Nat × LayoutNode) × ℚ × List (ℚ × ℚ)) id =>
      match alGet acc.1 id with
      | none => acc
      | some node =>
        (alSet acc.1 id { node with x := layer.x, y := acc.2.1 },
         acc.2.1 + node.height + config.verticalGap,
         acc.2.2 ++ [(acc.2.1, acc.2.1 + node.height)]))
    (nodes, config.startY, [])
  let nodes1 := placed.1
  let y := placed.2.1
  let reservedRegions := placed.2.2
  if standaloneIds.isEmpty then (nodes1, layer)
  else
    let sizes := standaloneIds.foldl
      (fun acc id =>
        match alGet nodes1 id with
        | some node => alSet acc id { w := node.width, h := node.height : Sz }
        | none => acc)
      []
    let rows := packNodesIntoRows standaloneIds sizes config
    let nodes2 := rows.foldl
      (fun nds row =>
        let rowY0 := y + row.yOffset
        let rowY := reservedRegions.foldl
          (fun ry region =>
            if ry < region.2 ∧ ry + row.height > region.1 then
              region.2 + config.verticalGap
            else ry)
          rowY0
        (row.nodes.foldl
          (fun (acc : List (Nat × LayoutNode) × ℚ) nodeId =>
            match alGet acc.1 nodeId with
            | some node =>
              (alSet acc.1 nodeId { node with x := acc.2, y := rowY },
               acc.2 + node.width + config.horizontalGap)
            | none => acc)
          (nds, layer.x)).1)
      nodes1
    let maxRowWidth := getPackedWidth rows
    (nodes2,
     if maxRowWidth > layer.maxWidth then { layer with maxWidth := maxRowWidth }
     else layer)

/-- `assignNodeYPositions` over all layers (the dead `packedRows` field of
the state is not modelled). -/
def assignNodeYPositions (state : LayoutState) : LayoutState :=
  let r := state.layers.foldl
    (fun (acc : List (Nat × LayoutNode) × List Layer) layer =>
      let p := assignLayerYPositions state.config layer acc.1
      (p.1, acc.2 ++ [p.2]))
    (state.nodes, [])
  { state with nodes := r.1, layers := r.2 }

/-- `recalculateLayerXPositions`: recompute layer x from the (possibly
widened) `maxWidth`s and move each node by keeping its offset inside its
layer. -/
def recalculateLayerXPositions (state : LayoutState) : LayoutState :=
  let zone := getDisconnectedZoneWidth state
  let nodeOffsets : List (Nat × ℚ) := state.layers.foldl
    (fun acc layer =>
      layer.nodeIds.foldl
        (fun acc2 id =>
          match alGet state.nodes id with
          | some node => alSet acc2 id (node.x - layer.x)
          | none => acc2)
        acc)
    []
  let r := state.layers.foldl
    (fun (acc : List Layer × ℚ) layer =>
      (acc.1 ++ [{ layer with x := acc.2 }],
       acc.2 + layer.maxWidth + state.config.horizontalGap))
    ([], state.config.startX + zone)
  let layers2 := r.1
  let nodes2 := layers2.foldl
    (fun nds layer =>
      layer.nodeIds.foldl
        (fun nds2 id =>
          match alGet nds2 id with
          | some node =>
            alSet nds2 id
              { node with x := layer.x + (alGet nodeOffsets id).getD 0 }
          | none => nds2)
        nds)
    state.nodes
  { state with nodes := nodes2, layers := layers2 }

/-- `getLayerBounds`: vertical bounds of a set of layout nodes. -/
def getLayerBounds (nodes : List (Nat × LayoutNode)) (ids : List Nat) :
    Option (ℚ × ℚ) :=
  ids.foldl
    (fun acc id =>
      match alGet nodes id with
      | none => acc
      | some node =>
        match acc with
        | none => some (node.y, node.y + node.height)
        | some b => some (min b.1 node.y, max b.2 (node.y + node.height)))
    none

/-- `compactVertically`: center every layer against the tallest
standalone-only layer height (group representatives excluded from the
maximum). -/
def compactVertically (state : LayoutState) : LayoutState :=
  let isRep := fun id =>
    ((alGet state.nodes id).map LayoutNode.isGroupRepresentative).getD false
  let maxTotalHeight := state.layers.foldl
    (fun m layer =>
      let standalone := layer.nodeIds.filter (fun id => !(isRep id))
      if standalone.isEmpty then m
      else
        match getLayerBounds state.nodes standalone with
        | none => m
        | some b => max m (b.2 - b.1))
    0
  if maxTotalHeight == 0 then state
  else
    let nodes2 := state.layers.foldl
      (fun nds layer =>
        if layer.nodeIds.isEmpty then nds
        else
          match getLayerBounds nds layer.nodeIds with
          | none => nds
          | some b =>
            let offset := (maxTotalHeight - (b.2 - b.1)) / 2
            layer.nodeIds.foldl
              (fun nds2 id =>
                match alGet nds2 id with
                | some node => alSet nds2 id { node with y := node.y + offset }
                | none => nds2)
              nds)
      state.nodes
    { state with nodes := nodes2 }

/-- `placeDisconnectedNodes`: stack ungrouped disconnected nodes in the
left margin, skipping pinned/locked ones when writing positions. -/
def placeDisconnectedNodes (state : LayoutState) : LayoutState :=
  if state.disconnectedNodes.isEmpty then state
  else
    let standaloneDisconnected := state.disconnectedNodes.filter
      (fun id => !(alHas state.nodeToGroup id))
    if standaloneDisconnected.isEmpty then state
    else
      let sizes := standaloneDisconnected.foldl
        (fun acc id =>
          match alGet state.allNodes id with
          | some node => alSet acc id { w := node.sizeW, h := node.sizeH : Sz }
          | none => acc)
        []
      let rows := packNodesIntoRows standaloneDisconnected sizes
        { state.config with maxColumns := 1 }
      let x := state.config.startX
      let y := state.config.startY
      let allNodes2 := rows.foldl
        (fun nds row =>
          row.nodes.foldl
            (fun nds2 nodeId =>
              match alGet nds2 nodeId with
              | some node =>
                if node.pinned ∨ node.locked then nds2
                else alSet nds2 nodeId
                  { node with posX := x, posY := y + row.yOffset }
              | none => nds2)
            nds)
        state.allNodes
      { state with allNodes := allNodes2 }

/-- `positionGroupContents`: recursively lay out a group's interior —
layer-based when members have internal links (note: this branch
repositions every member, pinned or not, as the source does), bin-packed
stacking otherwise — then place child groups below.  Returns the final y.
Fuel bounds the recursion over child groups. -/
def positionGroupContents (config : LayoutConfig)
    (layoutGroups : List LayoutGroup) :
    Nat → Nat → ℚ → ℚ → List (Nat × LNode) × List LGroup →
    (List (Nat × LNode) × List LGroup) × ℚ
  | 0, _, _, startY, st => (st, startY)
  | Nat.succ fuel, gidx, startX, startY, st =>
    match layoutGroups.get? gidx with
    | none => (st, startY)
    | some group =>
      let memberNodes := group.memberIds.filterMap
        (fun id =>
          match alGet st.1 id with
          | some node =>
            if node.pinned || node.locked then none else some id
          | none => none)
      if memberNodes.isEmpty && group.childIdxs.isEmpty then (st, startY)
      else
        let edges := getInternalEdges group.memberIds st.1
        let afterMembers :=
          if memberNodes.isEmpty then (st, startY)
          else if edges.length > 0 then
            let layers := assignMemberLayers group.memberIds edges st.1
            let r := layers.foldl
              (fun (acc : (List (Nat × LNode) × List LGroup) × ℚ × ℚ) layer =>
                if layer.isEmpty then acc
                else
                  let sortedLayer := stableSortBy
                    (fun a b =>
                      (((alGet acc.1.1 b).map LNode.sizeH).getD 100 : ℚ) <
                        ((alGet acc.1.1 a).map LNode.sizeH).getD 100)
                    layer
                  let x := acc.2.2
                  let inner := sortedLayer.foldl
                    (fun (a2 : (List (Nat × LNode) × List LGroup) × ℚ × ℚ) id =>
                      match alGet a2.1.1 id with
                      | none => a2
                      | some node =>
                        ((alSet a2.1.1 id
                            { node with posX := x, posY := a2.2.1 },
                          a2.1.2),
                         a2.2.1 + node.sizeH + config.verticalGap,
                         max a2.2.2 node.sizeW))
                    (acc.1, startY, 0)
                  let yEnd := inner.2.1
                  let layerMaxWidth := inner.2.2
                  (inner.1,
                   max acc.2.1 (yEnd - config.verticalGap),
                   x + layerMaxWidth + config.horizontalGap))
              (st, startY, startX)
            (r.1, r.2.1)
          else
            let sortedMembers := stableSortBy
              (fun a b =>
                (((alGet st.1 b).map LNode.sizeH).getD 100 : ℚ) <
                  ((alGet st.1 a).map LNode.sizeH).getD 100)
              memberNodes
            let sizes := sortedMembers.foldl
              (fun acc id =>
                match alGet st.1 id with
                | some node =>
                  alSet acc id { w := node.sizeW, h := node.sizeH : Sz }
                | none => acc)
              []
            let rows := packNodesIntoRows sortedMembers sizes config
            let r := rows.foldl
              (fun (acc : (List (Nat × LNode) × List LGroup) × ℚ) row =>
                let rowRes := row.nodes.foldl
                  (fun (a2 : (List (Nat × LNode) × List LGroup) × ℚ) nodeId =>
                    match alGet a2.1.1 nodeId with
                    | some node =>
                      ((alSet a2.1.1 nodeId
                          { node with posX := a2.2, posY := acc.2 },
                        a2.1.2),
                       a2.2 + node.sizeW + config.horizontalGap)
                    | none => a2)
                  (acc.1, startX)
                (rowRes.1, acc.2 + row.height + config.verticalGap))
              (st, startY)
            (r.1, r.2 - config.verticalGap)
        let childRes := group.childIdxs.foldl
          (fun (acc : (List (Nat × LNode) × List LGroup) × ℚ) cidx =>
            let childStartX := startX
            let childStartY := acc.2 + config.verticalGap
            let rec2 := positionGroupContents config layoutGroups fuel cidx
              childStartX (childStartY + GROUP_TITLE_HEIGHT) acc.1
            let childEndY := rec2.2
            let boxes2 := listSetAt rec2.1.2
              ((layoutGroups.get? cidx).map LayoutGroup.groupIdx |>.getD cidx)
              (fun g =>
                { g with posX := childStartX - config.groupPadding,
                         posY := childStartY - config.groupPadding })
            ((rec2.1.1, boxes2), childEndY + config.groupPadding))
          afterMembers
        childRes

/-- `applyPositions`: write computed coordinates to the node store, lay
out group interiors from each top-level representative, place
disconnected nodes, and restore collapsed reroute chains. -/
def applyPositions (state : LayoutState) : LayoutState :=
  let allNodes1 := state.nodes.foldl
    (fun nds kv =>
      let layoutNode := kv.2
      if layoutNode.isGroupRepresentative then nds
      else
        match alGet nds layoutNode.id with
        | none => nds
        | some comfyNode =>
          if comfyNode.pinned ∨ comfyNode.locked then nds
          else alSet nds layoutNode.id
            { comfyNode with posX := layoutNode.x, posY := layoutNode.y })
    state.allNodes
  let topLevel := state.layoutGroups.filter (fun g => g.parentIdx = none)
  let afterGroups := topLevel.foldl
    (fun (acc : List (Nat × LNode) × List LGroup) topGroup =>
      match alGet state.groupRepresentatives topGroup.groupIdx with
      | none => acc
      | some repId =>
        match alGet state.nodes repId with
        | none => acc
        | some repNode =>
          let startX := repNode.x + state.config.groupPadding
          let startY := repNode.y + state.config.groupPadding +
            GROUP_TITLE_HEIGHT
          (positionGroupContents state.config state.layoutGroups
            (state.layoutGroups.length + 1) topGroup.groupIdx startX startY
            acc).1)
    (allNodes1, state.groupBoxes)
  let state1 := { state with allNodes := afterGroups.1,
                             groupBoxes := afterGroups.2 }
  let state2 := placeDisconnectedNodes state1
  if state2.rerouteChains.length > 0 then
    let positions0 : List (Nat × Pt) := state2.allNodes.foldl
      (fun acc kv => alSet acc kv.1 { x := kv.2.posX, y := kv.2.posY }) []
    let sizes0 : List (Nat × Sz) := state2.allNodes.foldl
      (fun acc kv => alSet acc kv.1 { w := kv.2.sizeW, h := kv.2.sizeH }) []
    let positions1 := state2.nodes.foldl
      (fun acc kv => alSet acc kv.1 { x := kv.2.x, y := kv.2.y }) positions0
    let sizes1 := state2.nodes.foldl
      (fun acc kv => alSet acc kv.1 { w := kv.2.width, h := kv.2.height })
      sizes0
    let restored := restoreReroutePositions state2.rerouteChains positions1
      sizes1
    let allNodes2 := state2.rerouteChains.foldl
      (fun nds chain =>
        chain.nodes.foldl
          (fun nds2 rerouteId =>
            match alGet restored rerouteId, alGet nds2 rerouteId with
            | some pos, some node =>
              alSet nds2 rerouteId { node with posX := pos.x, posY := pos.y }
            | _, _ => nds2)
          nds)
      state2.allNodes
    { state2 with allNodes := allNodes2 }
  else state2

/-! ## Overlap resolution (`resolveAllOverlaps` and the scanline passes) -/

/-- What a resolver entity stands for: a top-level group (by index) or an
ungrouped node (by id). -/
inductive EntityRef where
  | group (idx : Nat)
  | node (id : Nat)
  deriving Repr, DecidableEq

/-- A resolver entity (`LayoutEntity`): priority and box. -/
structure LayoutEntity where
  ref : EntityRef
  priority : ℚ
  x : ℚ
  y : ℚ
  width : ℚ
  height : ℚ
  deriving Repr, DecidableEq

/-- `collectEntities`: top-level groups (priority 100) then ungrouped,
non-pinned, non-locked nodes (priority 50, or 10 when disconnected). -/
def collectEntities (state : LayoutState) : List LayoutEntity :=
  let groupEntities := state.layoutGroups.foldl
    (fun acc lg =>
      if lg.parentIdx ≠ none then acc
      else
        match state.groupBoxes.get? lg.groupIdx with
        | none => acc
        | some box =>
          acc ++ [{ ref := EntityRef.group lg.groupIdx, priority := 100,
                    x := box.posX, y := box.posY,
                    width := box.sizeW, height := box.sizeH }])
    []
  state.allNodes.foldl
    (fun acc kv =>
      if alHas state.nodeToGroup kv.1 then acc
      else if kv.2.pinned || kv.2.locked then acc
      else
        acc ++ [{ ref := EntityRef.node kv.1,
                  priority := if kv.1 ∈ state.disconnectedNodes then 10 else 50,
                  x := kv.2.posX, y := kv.2.posY,
                  width := kv.2.sizeW, height := kv.2.sizeH }])
    groupEntities

/-- `shiftGroupContentsRecursively`: shift a group's members and all its
nested groups (boxes and members) by a delta. -/
def shiftGroupContents (layoutGroups : List LayoutGroup) (dx dy : ℚ) :
    Nat → Nat → List (Nat × LNode) × List LGroup →
    List (Nat × LNode) × List LGroup
  | 0, _, st => st
  | Nat.succ fuel, gidx, st =>
    match layoutGroups.get? gidx with
    | none => st
    | some lg =>
      let st1 := lg.memberIds.foldl
        (fun (acc : List (Nat × LNode) × List LGroup) nodeId =>
          match alGet acc.1 nodeId with
          | some node =>
            (alSet acc.1 nodeId
              { node with posX := node.posX + dx, posY := node.posY + dy },
             acc.2)
          | none => acc)
        st
      lg.childIdxs.foldl
        (fun acc cidx =>
          let boxes2 := listSetAt acc.2 cidx
            (fun g => { g with posX := g.posX + dx, posY := g.posY + dy })
          shiftGroupContents layoutGroups dx dy fuel cidx (acc.1, boxes2))
        st1

/-- `applyEntityShift`: move a pushed entity's underlying objects — a
group shifts its box, members, and nested groups; a node shifts its
position. -/
def applyEntityShift (layoutGroups : List LayoutGroup)
    (entity : LayoutEntity) (dx dy : ℚ)
    (st : List (Nat × LNode) × List LGroup) :
    List (Nat × LNode) × List LGroup :=
  match entity.ref with
  | EntityRef.group gidx =>
    match layoutGroups.get? gidx with
    | none => st
    | some lg =>
      let boxes1 := listSetAt st.2 gidx
        (fun g => { g with posX := g.posX + dx, posY := g.posY + dy })
      let st1 := lg.memberIds.foldl
        (fun (acc : List (Nat × LNode) × List LGroup) nodeId =>
          match alGet acc.1 nodeId with
          | some node =>
            (alSet acc.1 nodeId
              { node with posX := node.posX + dx, posY := node.posY + dy },
             acc.2)
          | none => acc)
        (st.1, boxes1)
      lg.childIdxs.foldl
        (fun acc cidx =>
          let boxes2 := listSetAt acc.2 cidx
            (fun g => { g with posX := g.posX + dx, posY := g.posY + dy })
          shiftGroupContents layoutGroups dx dy (layoutGroups.length + 1)
            cidx (acc.1, boxes2))
        st1
  | EntityRef.node nodeId =>
    match alGet st.1 nodeId with
    | some node =>
      (alSet st.1 nodeId
        { node with posX := node.posX + dx, posY := node.posY + dy },
       st.2)
    | none => st

/-- The X-pass push of one entity against one anchor: if the boxes
overlap on the padded y band and the pushed entity starts left of the
required x, move it (and its objects) right to the required x. -/
def pushX (config : LayoutConfig) (layoutGroups : List LayoutGroup)
    (anchor : LayoutEntity)
    (bst : LayoutEntity × (List (Nat × LNode) × List LGroup)) :
    LayoutEntity × (List (Nat × LNode) × List LGroup) :=
  let b := bst.1
  let yOverlap :=
    anchor.y < b.y + b.height + config.verticalGap ∧
    b.y < anchor.y + anchor.height + config.verticalGap
  let requiredX := anchor.x + anchor.width + config.horizontalGap
  if yOverlap ∧ b.x < requiredX then
    ({ b with x := requiredX },
     applyEntityShift layoutGroups b (requiredX - b.x) 0 bst.2)
  else bst

/-- The Y-pass push of one entity against one anchor. -/
def pushY (config : LayoutConfig) (layoutGroups : List LayoutGroup)
    (anchor : LayoutEntity)
    (bst : LayoutEntity × (List (Nat × LNode) × List LGroup)) :
    LayoutEntity × (List (Nat × LNode) × List LGroup) :=
  let b := bst.1
  let xOverlap :=
    anchor.x < b.x + b.width + config.horizontalGap ∧
    b.x < anchor.x + anchor.width + config.horizontalGap
  let requiredY := anchor.y + anchor.height + config.verticalGap
  if xOverlap ∧ b.y < requiredY then
    ({ b with y := requiredY },
     applyEntityShift layoutGroups b 0 (requiredY - b.y) bst.2)
  else bst

/-- Push every later entity against an anchor, in order (the inner `j`
loop of a scanline iteration). -/
def pushAll (push : LayoutEntity →
      LayoutEntity × (List (Nat × LNode) × List LGroup) →
      LayoutEntity × (List (Nat × LNode) × List LGroup))
    (anchor : LayoutEntity) (rest : List LayoutEntity)
    (st : List (Nat × LNode) × List LGroup) :
    List LayoutEntity × (List (Nat × LNode) × List LGroup) :=
  rest.foldl
    (fun (acc : List LayoutEntity × (List (Nat × LNode) × List LGroup)) b =>
      let r := push anchor (b, acc.2)
      (acc.1 ++ [r.1], r.2))
    ([], st)

/-- One scanline iteration (the double loop): each entity in turn
anchors and pushes all entities after it.  `pushAll` preserves the list
length, so the fuel (called with the entity count) is never exhausted. -/
def processScanF (push : LayoutEntity →
      LayoutEntity × (List (Nat × LNode) × List LGroup) →
      LayoutEntity × (List (Nat × LNode) × List LGroup)) :
    Nat → List LayoutEntity → (List (Nat × LNode) × List LGroup) →
    List LayoutEntity × (List (Nat × LNode) × List LGroup)
  | 0, es, st => (es, st)
  | Nat.succ _, [], st => ([], st)
  | Nat.succ fuel, a :: rest, st =>
    let r := pushAll push a rest st
    let r2 := processScanF push fuel r.1 r.2
    (a :: r2.1, r2.2)

/-- One scanline iteration at the natural fuel. -/
def processScan (push : LayoutEntity →
      LayoutEntity × (List (Nat × LNode) × List LGroup) →
      LayoutEntity × (List (Nat × LNode) × List LGroup))
    (es : List LayoutEntity) (st : List (Nat × LNode) × List LGroup) :
    List LayoutEntity × (List (Nat × LNode) × List LGroup) :=
  processScanF push es.length es st

/-- Sort order of the X pass: x ascending, ties by priority descending. -/
def entityBeforeX (a b : LayoutEntity) : Bool :=
  a.x < b.x ∨ (a.x = b.x ∧ b.priority < a.priority)

/-- Sort order of the Y pass: y ascending, ties by priority descending. -/
def entityBeforeY (a b : LayoutEntity) : Bool :=
  a.y < b.y ∨ (a.y = b.y ∧ b.priority < a.priority)

/-- The bounded `while (changed)` loop of a scanline pass: sort, run one
iteration, stop when nothing moved (fuel is the source's
`entities.length * 2` bound). -/
def scanLoop (sortBefore : LayoutEntity → LayoutEntity → Bool)
    (push : LayoutEntity →
      LayoutEntity × (List (Nat × LNode) × List LGroup) →
      LayoutEntity × (List (Nat × LNode) × List LGroup)) :
    Nat → List LayoutEntity → (List (Nat × LNode) × List LGroup) →
    List LayoutEntity × (List (Nat × LNode) × List LGroup)
  | 0, es, st => (es, st)
  | Nat.succ fuel, es, st =>
    let s := stableSortBy sortBefore es
    let r := processScan push s st
    if r.1 = s then (s, r.2)
    else scanLoop sortBefore push fuel r.1 r.2

/-- `scanlineResolveX` (its entity/store effect; the `anyChanged` result
is only logged by the source). -/
def scanlineResolveX (config : LayoutConfig) (layoutGroups : List LayoutGroup)
    (entities : List LayoutEntity) (st : List (Nat × LNode) × List LGroup) :
    List LayoutEntity × (List (Nat × LNode) × List LGroup) :=
  scanLoop entityBeforeX (pushX config layoutGroups) (entities.length * 2)
    entities st

/-- `scanlineResolveY`. -/
def scanlineResolveY (config : LayoutConfig) (layoutGroups : List LayoutGroup)
    (entities : List LayoutEntity) (st : List (Nat × LNode) × List LGroup) :
    List LayoutEntity × (List (Nat × LNode) × List LGroup) :=
  scanLoop entityBeforeY (pushY config layoutGroups) (entities.length * 2)
    entities st

/-- `resolveAllOverlaps`, exposing the final entity list alongside the
updated stores: collect entities, then the X pass, then the Y pass
(skipped entirely with fewer than two entities). -/
def resolveCore (state : LayoutState) :
    List LayoutEntity × (List (Nat × LNode) × List LGroup) :=
  let entities := collectEntities state
  if entities.length < 2 then (entities, (state.allNodes, state.groupBoxes))
  else
    let r1 := scanlineResolveX state.config state.layoutGroups entities
      (state.allNodes, state.groupBoxes)
    scanlineResolveY state.config state.layoutGroups r1.1 r1.2

/-- `resolveAllOverlaps` as a state transformer. -/
def resolveAllOverlaps (state : LayoutState) : LayoutState :=
  let r := resolveCore state
  { state with allNodes := r.2.1, groupBoxes := r.2.2 }

/-! ## Group resizing (`src/layout/groups.ts`) -/

/-- `resizeGroupsToFit`: deepest first, set each group's box to the
padded bounding box of its members and already-resized children;
returns the resized count. -/
def resizeGroupsToFit (state : LayoutState) : LayoutState × Nat :=
  let r := (List.range state.groupsByDepth.length).reverse.foldl
    (fun (acc : List LGroup × Nat) depth =>
      (state.groupsByDepth.getD depth []).foldl
        (fun (acc2 : List LGroup × Nat) gidx =>
          match state.layoutGroups.get? gidx with
          | none => acc2
          | some lg =>
            if lg.memberIds.isEmpty && lg.childIdxs.isEmpty then acc2
            else
              let bounds0 : Option (ℚ × ℚ × ℚ × ℚ) := lg.memberIds.foldl
                (fun b nodeId =>
                  match alGet state.allNodes nodeId with
                  | none => b
                  | some node =>
                    let nx := node.posX
                    let ny := node.posY
                    let nw := node.sizeW
                    let nh := node.sizeH
                    match b with
                    | none => some (nx, ny, nx + nw, ny + nh)
                    | some bb =>
                      some (min bb.1 nx, min bb.2.1 ny,
                            max bb.2.2.1 (nx + nw), max bb.2.2.2 (ny + nh)))
                none
              let bounds := lg.childIdxs.foldl
                (fun b cidx =>
                  match acc2.1.get? cidx with
                  | none => b
                  | some cg =>
                    match b with
                    | none => some (cg.posX, cg.posY, cg.posX + cg.sizeW,
                        cg.posY + cg.sizeH)
                    | some bb =>
                      some (min bb.1 cg.posX, min bb.2.1 cg.posY,
                            max bb.2.2.1 (cg.posX + cg.sizeW),
                            max bb.2.2.2 (cg.posY + cg.sizeH)))
                bounds0
              match bounds with
              | none => acc2
              | some bb =>
                let padding := state.config.groupPadding
                (listSetAt acc2.1 gidx
                  (fun g =>
                    { g with
                      posX := bb.1 - padding
                      posY := bb.2.1 - padding - GROUP_TITLE_HEIGHT
                      sizeW := bb.2.2.1 - bb.1 + padding * 2
                      sizeH := bb.2.2.2 - bb.2.1 + padding * 2 +
                        GROUP_TITLE_HEIGHT }),
                 acc2.2 + 1))
        acc)
    (state.groupBoxes, 0)
  ({ state with groupBoxes := r.1 }, r.2)

/-! ## Full-graph layout entry point (`src/layout/index.ts`) -/

/-- Result record of `layoutGraph` (`LayoutResult`); the elapsed-time
field is wall-clock measurement and is not modelled. -/
structure LayoutResult where
  nodeCount : Nat
  layerCount : Nat
  groupCount : Nat
  deriving Repr, DecidableEq

/-- `layoutGraph`: the full pipeline — build, layer, order, position,
compact, apply, resize, resolve — returning the mutated graph and the
result record. -/
def layoutGraph (graph : LGraph) (config : LayoutConfig) :
    LGraph × LayoutResult :=
  if graph.nodes.isEmpty then
    (graph, { nodeCount := 0, layerCount := 0, groupCount := 0 })
  else
    let st0 := buildLayoutGraph graph config
    let st1 := assignLayers st0
    let st2 := minimizeCrossings st1
    let st3 := assignLayerXPositions st2
    let st4 := assignNodeYPositions st3
    let st5 := recalculateLayerXPositions st4
    let st6 := compactVertically st5
    let st7 := applyPositions st6
    let resized := resizeGroupsToFit st7
    let st9 := resolveAllOverlaps resized.1
    let disconnectedCount := st9.disconnectedNodes.length
    let rerouteCount := st9.rerouteChains.foldl
      (fun s c => s + c.nodes.length) 0
    let graph2 : LGraph :=
      { graph with
        nodes := graph.nodes.map (fun n => (alGet st9.allNodes n.id).getD n)
        groups := st9.groupBoxes }
    (graph2,
     { nodeCount := st9.nodes.length + disconnectedCount + rerouteCount
       layerCount := st9.layers.length
       groupCount := resized.2 })

/-! ## Title tokens (`src/layout/title-tokens.ts`) -/

/-- Layout mode parsed from a group title (`LayoutMode`). -/
inductive LayoutMode where
  | dflt
  | horizontal
  | vertical
  | rows (count : Nat)
  | columns (count : Nat)
  deriving Repr, DecidableEq

/-- Substring test on character lists (`String.includes`). -/
def containsSeq (pat : List Char) : List Char → Bool
  | [] => pat.isEmpty
  | c :: rest => pat.isPrefixOf (c :: rest) || containsSeq pat rest

/-- First-match scan for the pattern `[<1-9><pat>]` (the source's
`\x5b([1-9])ROW\x5d` / `...COL...` regexes), over an uppercased
character list. -/
def scanDigitToken (pat : List Char) : List Char → Option Nat
  | [] => none
  | c :: rest =>
    if c = '[' then
      match rest with
      | d :: rest2 =>
        if '1' ≤ d ∧ d ≤ '9' ∧ (pat ++ [']']).isPrefixOf rest2 then
          some (d.toNat - 48)
        else scanDigitToken pat rest
      | [] => none
    else scanDigitToken pat rest

/-- ASCII uppercasing of one character (the title tokens the source
matches are ASCII; `toUpperCase` on them is this map). -/
def upperChar (c : Char) : Char :=
  if 'a' ≤ c ∧ c ≤ 'z' then Char.ofNat (c.toNat - 32) else c

/-- `parseLayoutToken` (case-insensitive; first match wins; `1ROW` and
`1COL` alias to horizontal/vertical). -/
def parseLayoutToken (title : String) : LayoutMode :=
  let upper := title.toList.map upperChar
  if containsSeq ("[HORIZONTAL]".toList) upper then LayoutMode.horizontal
  else if containsSeq ("[VERTICAL]".toList) upper then LayoutMode.vertical
  else
    match scanDigitToken ("ROW".toList) upper with
    | some count =>
      if count = 1 then LayoutMode.horizontal else LayoutMode.rows count
    | none =>
      match scanDigitToken ("COL".toList) upper with
      | some count =>
        if count = 1 then LayoutMode.vertical else LayoutMode.columns count
      | none => LayoutMode.dflt

/-- `NodeInfo` for token arrangement; ids are `Int` because the selected
groups layout feeds nested groups in with negated ids. -/
structure NodeInfo where
  id : Int
  width : ℚ
  height : ℚ
  originalX : ℚ
  originalY : ℚ
  deriving Repr, DecidableEq

/-- An arranged position (`ArrangedNode`). -/
structure ArrangedNode where
  id : Int
  x : ℚ
  y : ℚ
  deriving Repr, DecidableEq

/-- `sortByOriginalPosition`: left-to-right, then top-to-bottom. -/
def sortByOriginalPosition (nodes : List NodeInfo) : List NodeInfo :=
  stableSortBy
    (fun a b =>
      a.originalX < b.originalX ∨
        (a.originalX = b.originalX ∧ a.originalY < b.originalY))
    nodes

/-- `arrangeHorizontal`. -/
def arrangeHorizontal (nodes : List NodeInfo) (startX startY gap : ℚ) :
    List ArrangedNode :=
  ((sortByOriginalPosition nodes).foldl
    (fun (acc : List ArrangedNode × ℚ) node =>
      (acc.1 ++ [{ id := node.id, x := acc.2, y := startY }],
       acc.2 + node.width + gap))
    ([], startX)).1

/-- `arrangeVertical` (sorts top-to-bottom, then left-to-right). -/
def arrangeVertical (nodes : List NodeInfo) (startX startY gap : ℚ) :
    List ArrangedNode :=
  let sorted := stableSortBy
    (fun a b =>
      a.originalY < b.originalY ∨
        (a.originalY = b.originalY ∧ a.originalX < b.originalX))
    nodes
  (sorted.foldl
    (fun (acc : List ArrangedNode × ℚ) node =>
      (acc.1 ++ [{ id := node.id, x := startX, y := acc.2 }],
       acc.2 + node.height + gap))
    ([], startY)).1

/-- Round-robin distribution into `count` buckets, keeping order. -/
def roundRobin (count : Nat) (nodes : List NodeInfo) : List (List NodeInfo) :=
  (List.range count).map
    (fun r =>
      ((nodes.zip (List.range nodes.length)).filter
        (fun p => p.2 % count = r)).map Prod.fst)

/-- `arrangeRows`: N horizontal rows stacked vertically. -/
def arrangeRows (nodes : List NodeInfo) (rowCount : Nat)
    (startX startY horizontalGap verticalGap : ℚ) : List ArrangedNode :=
  let rows := roundRobin rowCount (sortByOriginalPosition nodes)
  (rows.foldl
    (fun (acc : List ArrangedNode × ℚ) row =>
      if row.isEmpty then acc
      else
        let r := row.foldl
          (fun (a2 : List ArrangedNode × ℚ × ℚ) node =>
            (a2.1 ++ [{ id := node.id, x := a2.2.1, y := acc.2 }],
             a2.2.1 + node.width + horizontalGap,
             max a2.2.2 node.height))
          (acc.1, startX, 0)
        (r.1, acc.2 + r.2.2 + verticalGap))
    ([], startY)).1

/-- `arrangeColumns`: N vertical columns side by side. -/
def arrangeColumns (nodes : List NodeInfo) (colCount : Nat)
    (startX startY horizontalGap verticalGap : ℚ) : List ArrangedNode :=
  let cols := roundRobin colCount (sortByOriginalPosition nodes)
  (cols.foldl
    (fun (acc : List ArrangedNode × ℚ) col =>
      if col.isEmpty then acc
      else
        let r := col.foldl
          (fun (a2 : List ArrangedNode × ℚ × ℚ) node =>
            (a2.1 ++ [{ id := node.id, x := acc.2, y := a2.2.1 }],
             a2.2.1 + node.height + verticalGap,
             max a2.2.2 node.width))
          (acc.1, startY, 0)
        (r.1, acc.2 + r.2.2 + horizontalGap))
    ([], startX)).1

/-- `arrangeByMode`: dispatch on the parsed mode (`default` yields no
arrangement). -/
def arrangeByMode (items : List NodeInfo) (mode : LayoutMode)
    (startX startY : ℚ) (config : LayoutConfig) : List ArrangedNode :=
  if items.isEmpty then []
  else
    match mode with
    | LayoutMode.horizontal =>
      arrangeHorizontal items startX startY config.horizontalGap
    | LayoutMode.vertical =>
      arrangeVertical items startX startY config.verticalGap
    | LayoutMode.rows count =>
      arrangeRows items count startX startY config.horizontalGap
        config.verticalGap
    | LayoutMode.columns count =>
      arrangeColumns items count startX startY config.horizontalGap
        config.verticalGap
    | LayoutMode.dflt => []

/-! ## Selected-groups layout (`src/layout/selected-groups.ts`)

Groups are addressed by their index in `graph.groups` (modelling object
identity); boxes are read live from the threaded store. -/

/-- Mutable state of a selected-groups run: the node store, the group
boxes, and the processed set (group indices). -/
structure SelState where
  allNodes : List (Nat × LNode)
  boxes : List LGroup
  processed : List Nat
  deriving Repr, DecidableEq

/-- Containment test between two group indices on current boxes. -/
def selContains (boxes : List LGroup) (outerIdx innerIdx : Nat) : Bool :=
  match boxes.get? outerIdx, boxes.get? innerIdx with
  | some outer, some inner => groupContainsGroup outer inner
  | _, _ => false

/-- Node-inside-group test on current boxes. -/
def selNodeInside (boxes : List LGroup) (node : LNode) (gidx : Nat) : Bool :=
  match boxes.get? gidx with
  | some box => nodeInsideGroup node box
  | none => false

/-- `translateGroupPosition` (the one box format of the model). -/
def translateGroupPositionSel (boxes : List LGroup) (gidx : Nat) (dx dy : ℚ) :
    List LGroup :=
  listSetAt boxes gidx
    (fun g => { g with posX := g.posX + dx, posY := g.posY + dy })

/-- `resizeGroupToFitMembers`: padded bounding box of the member nodes. -/
def resizeGroupToFitMembers (st : SelState) (gidx : Nat)
    (memberIds : List Nat) (config : LayoutConfig) : SelState :=
  if memberIds.isEmpty then st
  else
    let bounds : Option (ℚ × ℚ × ℚ × ℚ) := memberIds.foldl
      (fun b nodeId =>
        match alGet st.allNodes nodeId with
        | none => b
        | some node =>
          let lo := (node.posX, node.posY)
          let hi := (node.posX + node.sizeW, node.posY + node.sizeH)
          match b with
          | none => some (lo.1, lo.2, hi.1, hi.2)
          | some bb => some (min bb.1 lo.1, min bb.2.1 lo.2,
              max bb.2.2.1 hi.1, max bb.2.2.2 hi.2))
      none
    match bounds with
    | none => st
    | some bb =>
      let p := config.groupPadding
      { st with boxes := (listSetAt st.boxes gidx
          (fun g =>
            { g with
              posX := bb.1 - p
              posY := bb.2.1 - p - GROUP_TITLE_HEIGHT
              sizeW := bb.2.2.1 - bb.1 + p * 2
              sizeH := bb.2.2.2 - bb.2.1 + p * 2 + GROUP_TITLE_HEIGHT })) }

/-- `translateGroupWithMembers`: move the group box, the tracked member
nodes, and — testing containment against the already-moved box, as the
source does — every other listed group now inside it (boxes only). -/
def translateGroupWithMembers (st : SelState) (gidx : Nat) (dx dy : ℚ)
    (memberIds : List Nat) (allGroupIdxs : List Nat) : SelState :=
  let boxes1 := translateGroupPositionSel st.boxes gidx dx dy
  let nodes1 := memberIds.foldl
    (fun nds nodeId =>
      match alGet nds nodeId with
      | some node =>
        alSet nds nodeId
          { node with posX := node.posX + dx, posY := node.posY + dy }
      | none => nds)
    st.allNodes
  let boxes2 := allGroupIdxs.foldl
    (fun bxs nestedIdx =>
      if nestedIdx = gidx then bxs
      else if selContains bxs gidx nestedIdx then
        translateGroupPositionSel bxs nestedIdx dx dy
      else bxs)
    boxes1
  { st with allNodes := nodes1, boxes := boxes2 }

/-- `collectNestedGroups`: BFS over current containment. -/
def collectNestedLoop (boxes : List LGroup) (allGroupIdxs : List Nat) :
    Nat → List Nat → List Nat → List Nat
  | 0, _, nested => nested
  | Nat.succ _, [], nested => nested
  | Nat.succ fuel, current :: queue, nested =>
    let r := allGroupIdxs.foldl
      (fun (acc : List Nat × List Nat) gidx =>
        if gidx = current then acc
        else if selContains boxes current gidx ∧ gidx ∉ acc.2 then
          (acc.1 ++ [gidx], acc.2 ++ [gidx])
        else acc)
      (queue, nested)
    collectNestedLoop boxes allGroupIdxs fuel r.1 r.2

/-- `collectNestedGroups`. -/
def collectNestedGroups (boxes : List LGroup) (parentIdx : Nat)
    (allGroupIdxs : List Nat) : List Nat :=
  collectNestedLoop boxes allGroupIdxs (allGroupIdxs.length + 2) [parentIdx] []

/-- `collectDirectMembers`: nodes inside the group but in none of the
given nested groups. -/
def collectDirectMembers (st : SelState) (gidx : Nat)
    (nestedIdxs : List Nat) : List Nat :=
  st.allNodes.foldl
    (fun members kv =>
      if selNodeInside st.boxes kv.2 gidx ∧
          ¬ (nestedIdxs.any (fun n => selNodeInside st.boxes kv.2 n)) then
        sAdd members kv.1
      else members)
    []

/-- Running bounds merge (the source's ±Infinity min/max tracking). -/
def mergeBounds (b : Option (ℚ × ℚ × ℚ × ℚ)) (x1 y1 x2 y2 : ℚ) :
    Option (ℚ × ℚ × ℚ × ℚ) :=
  match b with
  | none => some (x1, y1, x2, y2)
  | some bb => some (min bb.1 x1, min bb.2.1 y1, max bb.2.2.1 x2,
      max bb.2.2.2 y2)

/-- Nesting depth used by the deepest-first sorts: how many of the other
listed groups contain this one (current boxes). -/
def selNestingDepth (boxes : List LGroup) (nestedIdxs : List Nat)
    (g : Nat) : Nat :=
  (nestedIdxs.filter (fun o => o ≠ g ∧ selContains boxes o g)).length

/-- `layoutGroupContents` of the selected-groups module: token-based or
default interior layout, recursive nested-group handling, final resize.
Fuel bounds the recursion (each productive call marks a new group
processed). -/
def selLayoutGroupContents (config : LayoutConfig) (nodeIdsAll : List Nat)
    (fuel0 : Nat) (gidx0 : Nat) (memberIds0 nestedIdxs0 : List Nat)
    (st0 : SelState) : SelState :=
  match fuel0, gidx0, memberIds0, nestedIdxs0, st0 with
  | 0, _, _, _, st => st
  | Nat.succ fuel, gidx, memberIds, nestedIdxs, st =>
    if gidx ∈ st.processed then st
    else
      let st := { st with processed := st.processed ++ [gidx] }
      let members := memberIds.filter
        (fun id =>
          match alGet st.allNodes id with
          | some node => ¬ (node.pinned ∨ node.locked)
          | none => false)
      if members.isEmpty && nestedIdxs.isEmpty then st
      else
        match st.boxes.get? gidx with
        | none => st
        | some box =>
          let mode := parseLayoutToken box.title
          let startX := box.posX + config.groupPadding
          let startY := box.posY + config.groupPadding + GROUP_TITLE_HEIGHT
          let afterContent :
              SelState × Option (ℚ × ℚ × ℚ × ℚ) × ℚ :=
            if mode ≠ LayoutMode.dflt ∧
                (members.length > 0 ∨ nestedIdxs.length > 0) then
              let sortedNested := stableSortBy
                (fun a b =>
                  selNestingDepth st.boxes nestedIdxs b <
                    selNestingDepth st.boxes nestedIdxs a)
                nestedIdxs
              let recRes := sortedNested.foldl
                (fun (acc : SelState × List (Nat × List Nat)) nested =>
                  if nested ∈ acc.1.processed then acc
                  else
                    let nestedMemberIds := acc.1.allNodes.foldl
                      (fun ms kv =>
                        if selNodeInside acc.1.boxes kv.2 nested ∧
                            ¬ (sortedNested.any
                              (fun other =>
                                other ≠ nested ∧
                                selContains acc.1.boxes nested other ∧
                                selNodeInside acc.1.boxes kv.2 other)) then
                          sAdd ms kv.1
                        else ms)
                      []
                    let gid := ((acc.1.boxes.get? nested).map LGroup.id).getD 0
                    let mems2 := alSet acc.2 gid nestedMemberIds
                    let deeperNested := sortedNested.filter
                      (fun g => g ≠ nested ∧ selContains acc.1.boxes nested g)
                    let st2 := selLayoutGroupContents config nodeIdsAll fuel
                      nested nestedMemberIds deeperNested acc.1
                    (resizeGroupToFitMembers st2 nested nestedMemberIds config,
                     mems2))
                (st, [])
              let st3 := recRes.1
              let nestedGroupMembers := recRes.2
              let directNested := nestedIdxs.filter
                (fun g =>
                  ¬ (nestedIdxs.any
                    (fun other => other ≠ g ∧ selContains st3.boxes other g)))
              let memberItems : List NodeInfo := members.filterMap
                (fun id =>
                  (alGet st3.allNodes id).map
                    (fun node =>
                      { id := (id : Int), width := node.sizeW,
                        height := node.sizeH, originalX := node.posX,
                        originalY := node.posY }))
              let groupItems : List NodeInfo := directNested.filterMap
                (fun g =>
                  (st3.boxes.get? g).map
                    (fun b =>
                      { id := -(b.id : Int), width := b.sizeW,
                        height := b.sizeH, originalX := b.posX,
                        originalY := b.posY }))
              let allItems := memberItems ++ groupItems
              if allItems.length > 0 then
                let arranged := arrangeByMode allItems mode startX startY
                  config
                arranged.foldl
                  (fun (acc : SelState × Option (ℚ × ℚ × ℚ × ℚ) × ℚ)
                      (pos : ArrangedNode) =>
                    if pos.id < 0 then
                      let groupId := (-pos.id).toNat
                      match directNested.find?
                          (fun g =>
                            ((acc.1.boxes.get? g).map LGroup.id) =
                              some groupId) with
                      | none => acc
                      | some ng =>
                        match acc.1.boxes.get? ng with
                        | none => acc
                        | some ngBox =>
                          let deltaX := pos.x - ngBox.posX
                          let deltaY := pos.y - ngBox.posY
                          let tracked :=
                            (alGet nestedGroupMembers groupId).getD []
                          let st4 := translateGroupWithMembers acc.1 ng
                            deltaX deltaY tracked nestedIdxs
                          let gw := ngBox.sizeW
                          let gh := ngBox.sizeH
                          (st4,
                           mergeBounds acc.2.1 pos.x pos.y (pos.x + gw)
                             (pos.y + gh),
                           max acc.2.2 (pos.y + gh))
                    else
                      let nodeId := pos.id.toNat
                      match alGet acc.1.allNodes nodeId with
                      | none => acc
                      | some node =>
                        ({ acc.1 with allNodes := (alSet acc.1.allNodes nodeId
                            { node with posX := pos.x, posY := pos.y }) },
                         mergeBounds acc.2.1 pos.x pos.y (pos.x + node.sizeW)
                           (pos.y + node.sizeH),
                         max acc.2.2 (pos.y + node.sizeH)))
                  (st3, none, startY)
              else (st3, none, startY)
            else if members.length > 0 then
              let edges := getInternalEdges memberIds st.allNodes
              if edges.length > 0 then
                let layers := assignMemberLayers memberIds edges st.allNodes
                let r := layers.foldl
                  (fun (acc : SelState × Option (ℚ × ℚ × ℚ × ℚ) × ℚ × ℚ)
                      layer =>
                    if layer.isEmpty then acc
                    else
                      let sortedLayer := stableSortBy
                        (fun a b =>
                          (((alGet acc.1.allNodes b).map LNode.sizeH).getD 100
                              : ℚ) <
                            ((alGet acc.1.allNodes a).map LNode.sizeH).getD 100)
                        layer
                      let x := acc.2.2.2
                      let inner := sortedLayer.foldl
                        (fun (a2 : SelState × Option (ℚ × ℚ × ℚ × ℚ) × ℚ × ℚ)
                            id =>
                          match alGet a2.1.allNodes id with
                          | none => a2
                          | some node =>
                            ({ a2.1 with allNodes := (alSet a2.1.allNodes id
                                { node with posX := x, posY := a2.2.2.1 }) },
                             mergeBounds a2.2.1 x a2.2.2.1 (x + node.sizeW)
                               (a2.2.2.1 + node.sizeH),
                             a2.2.2.1 + node.sizeH + config.verticalGap,
                             max a2.2.2.2 node.sizeW))
                        (acc.1, acc.2.1, startY, 0)
                      let yEnd := inner.2.2.1
                      let layerMaxWidth := inner.2.2.2
                      (inner.1, inner.2.1,
                       max acc.2.2.1 (yEnd - config.verticalGap),
                       x + layerMaxWidth + config.horizontalGap))
                  (st, none, startY, startX)
                (r.1, r.2.1, r.2.2.1)
              else
                let sortedMembers := stableSortBy
                  (fun a b =>
                    (((alGet st.allNodes b).map LNode.sizeH).getD 100 : ℚ) <
                      ((alGet st.allNodes a).map LNode.sizeH).getD 100)
                  members
                let sizes := sortedMembers.foldl
                  (fun acc id =>
                    match alGet st.allNodes id with
                    | some node =>
                      alSet acc id { w := node.sizeW, h := node.sizeH : Sz }
                    | none => acc)
                  []
                let rows := packNodesIntoRows sortedMembers sizes
                  { config with maxColumns := 1 }
                rows.foldl
                  (fun (acc : SelState × Option (ℚ × ℚ × ℚ × ℚ) × ℚ) row =>
                    let rowY := startY + row.yOffset
                    let inner := row.nodes.foldl
                      (fun (a2 : SelState × Option (ℚ × ℚ × ℚ × ℚ) × ℚ)
                          nodeId =>
                        match alGet a2.1.allNodes nodeId with
                        | none => a2
                        | some node =>
                          ({ a2.1 with allNodes := (alSet a2.1.allNodes nodeId
                              { node with posX := a2.2.2, posY := rowY }) },
                           mergeBounds a2.2.1 a2.2.2 rowY
                             (a2.2.2 + node.sizeW) (rowY + node.sizeH),
                           a2.2.2 + node.sizeW + config.horizontalGap))
                      (acc.1, acc.2.1, startX)
                    (inner.1, inner.2.1,
                     max acc.2.2 (rowY + row.height)))
                  (st, none, startY)
            else (st, none, startY)
          let stc := afterContent.1
          let sortedNested2 := stableSortBy
            (fun a b =>
              selNestingDepth stc.boxes nestedIdxs b <
                selNestingDepth stc.boxes nestedIdxs a)
            nestedIdxs
          let directNested2pre := sortedNested2.filter
            (fun g =>
              ¬ (nestedIdxs.any
                (fun other => other ≠ g ∧ selContains stc.boxes other g)))
          let directNested2 := stableSortBy
            (fun a b =>
              let ay := ((stc.boxes.get? a).map LGroup.posY).getD 0
              let by2 := ((stc.boxes.get? b).map LGroup.posY).getD 0
              let ax := ((stc.boxes.get? a).map LGroup.posX).getD 0
              let bx := ((stc.boxes.get? b).map LGroup.posX).getD 0
              ay < by2 ∨ (ay = by2 ∧ ax < bx))
            directNested2pre
          let nestedRes := directNested2.foldl
            (fun (acc : SelState × Option (ℚ × ℚ × ℚ × ℚ) × ℚ) nested =>
              match acc.1.boxes.get? nested with
              | none => acc
              | some nBox0 =>
                if nested ∈ acc.1.processed then
                  (acc.1,
                   mergeBounds acc.2.1 nBox0.posX nBox0.posY
                     (nBox0.posX + nBox0.sizeW) (nBox0.posY + nBox0.sizeH),
                   acc.2.2)
                else
                  let nestedChildren := collectNestedGroups acc.1.boxes nested
                    nestedIdxs
                  let nestedMembers := collectDirectMembers acc.1 nested
                    nestedChildren
                  let st5 :=
                    if mode = LayoutMode.dflt then
                      let targetX := startX
                      let targetY := acc.2.2 + config.verticalGap
                      let deltaX := targetX - nBox0.posX
                      let deltaY := targetY - nBox0.posY
                      if deltaX ≠ 0 ∨ deltaY ≠ 0 then
                        translateGroupWithMembers acc.1 nested deltaX deltaY
                          nestedMembers nestedIdxs
                      else acc.1
                    else acc.1
                  let st6 := selLayoutGroupContents config nodeIdsAll fuel
                    nested nestedMembers nestedChildren st5
                  let st7 := resizeGroupToFitMembers st6 nested nestedMembers
                    config
                  match st7.boxes.get? nested with
                  | none => (st7, acc.2.1, acc.2.2)
                  | some nBox =>
                    (st7,
                     mergeBounds acc.2.1 nBox.posX nBox.posY
                       (nBox.posX + nBox.sizeW) (nBox.posY + nBox.sizeH),
                     max acc.2.2 (nBox.posY + nBox.sizeH)))
            (stc, afterContent.2.1, afterContent.2.2)
          match nestedRes.2.1 with
          | none => nestedRes.1
          | some bb =>
            let p := config.groupPadding
            { nestedRes.1 with boxes := (listSetAt nestedRes.1.boxes gidx
                (fun g =>
                  { g with
                    posX := bb.1 - p
                    posY := bb.2.1 - p - GROUP_TITLE_HEIGHT
                    sizeW := bb.2.2.1 - bb.1 + p * 2
                    sizeH := bb.2.2.2 - bb.2.1 + p * 2 +
                      GROUP_TITLE_HEIGHT })) }
termination_by structural fuel0

/-- Result record of `layoutSelectedGroups`
(`SelectedGroupLayoutResult`, elapsed time not modelled). -/
structure SelectedGroupLayoutResult where
  nodeCount : Nat
  groupCount : Nat
  deriving Repr, DecidableEq

/-- `layoutSelectedGroups`: lay out only the contents of the selected
groups (ids), absorbing selected children into selected parents and
auto-including nested groups. -/
def layoutSelectedGroups (graph : LGraph) (selectedGroupIds : List Nat)
    (config : LayoutConfig) : LGraph × SelectedGroupLayoutResult :=
  let allNodes := graph.nodes.foldl (fun acc n => alSet acc n.id n) []
  let allIdxs := List.range graph.groups.length
  let selected := allIdxs.filter
    (fun i => ((graph.groups.get? i).map LGroup.id).getD 0 ∈ selectedGroupIds)
  if selected.isEmpty then
    (graph, { nodeCount := 0, groupCount := 0 })
  else
    let topLevelSelected := selected.filter
      (fun g =>
        ¬ (selected.any
          (fun other => other ≠ g ∧ selContains graph.groups other g)))
    let st0 : SelState :=
      { allNodes := allNodes, boxes := graph.groups, processed := [] }
    let nodeIdsAll := alKeys allNodes
    let finalRes := topLevelSelected.foldl
      (fun (acc : SelState × Nat) gidx =>
        let nestedGroups := collectNestedGroups acc.1.boxes gidx allIdxs
        let memberIds := collectDirectMembers acc.1 gidx nestedGroups
        let st1 := selLayoutGroupContents config nodeIdsAll
          (graph.groups.length + 2) gidx memberIds nestedGroups acc.1
        let count1 := acc.2 + memberIds.length
        let count2 := nestedGroups.foldl
          (fun c nested =>
            let nestedChildren := collectNestedGroups st1.boxes nested
              nestedGroups
            let nestedMembers := collectDirectMembers st1 nested
              nestedChildren
            c + nestedMembers.length)
          count1
        (st1, count2))
      (st0, 0)
    let st := finalRes.1
    let graph2 : LGraph :=
      { graph with
        nodes := graph.nodes.map (fun n => (alGet st.allNodes n.id).getD n)
        groups := st.boxes }
    (graph2,
     { nodeCount := finalRes.2, groupCount := st.processed.length })

/-! ## Claim-side definitions and concrete inputs

The definitions below are either refinement counterparts written from
the spec's words (named `...Claim.../...Spec...`) or concrete inputs
used by counterexamples and witnesses. -/

/-- Position of a node in a graph, by id (first match, as the source's
`find`). -/
def nodePos (g : LGraph) (id : Nat) : Option (ℚ × ℚ) :=
  (g.nodes.find? (fun n => n.id = id)).map (fun n => (n.posX, n.posY))

/-- Open-box intersection of two resolver entities: strict overlap on
both axes. -/
def boxesIntersect (a b : LayoutEntity) : Prop :=
  a.x < b.x + b.width ∧ b.x < a.x + a.width ∧
  a.y < b.y + b.height ∧ b.y < a.y + a.height

/-- The pair [padded-x-overlap fails or y-separated]: the invariant the
Y scan pass establishes for every pair in list order. -/
def resolvedY (config : LayoutConfig) (a b : LayoutEntity) : Prop :=
  ¬ (a.x < b.x + b.width + config.horizontalGap ∧
      b.x < a.x + a.width + config.horizontalGap) ∨
  a.y + a.height + config.verticalGap ≤ b.y

/-- Height band of the amended auto-packing claim: written from the
spec's words ("within a 0.5–2.0 ratio"), mirroring the source's
degenerate case (a non-positive row height counts as compatible). -/
def specRowCompatible (rowHeight nodeHeight : ℚ) : Bool :=
  if rowHeight > 0 then
    (1 / 2 : ℚ) ≤ nodeHeight / rowHeight ∧ nodeHeight / rowHeight ≤ 2
  else true

/-- Fit test of the amended auto-packing claim: accumulated width plus a
horizontal gap plus the element's width stays within the budget, and the
heights are compatible. -/
def specRowFits (budget gap : ℚ) (row : WorkRow) (node : NodeSize) : Bool :=
  row.currentWidth + gap + node.width ≤ budget ∧
  specRowCompatible row.height node.height

/-- First-fit placement written from the claim's words: find the first
fitting row index and extend it, else open a new row. -/
def specInsertNode (budget gap : ℚ) (rows : List WorkRow) (node : NodeSize) :
    List WorkRow :=
  match rows.findIdx? (fun row => specRowFits budget gap row node) with
  | some i =>
    listSetAt rows i
      (fun row =>
        { nodes := row.nodes ++ [node]
          height := max row.height node.height
          currentWidth := row.currentWidth + gap + node.width })
  | none =>
    rows ++ [{ nodes := [node], height := node.height,
               currentWidth := node.width }]

/-- The amended claim's auto packing: elements tallest first, first-fit
with `specRowFits`, rows sorted by height descending, then y offsets. -/
def packAutoSpec (nodeIds : List Nat) (sizes : List (Nat × Sz))
    (config : LayoutConfig) : List PackedRow :=
  let nodeSizes := nodeIds.map
    (fun id =>
      let size := alGet sizes id
      { id := id, width := (size.map Sz.w).getD 200,
        height := (size.map Sz.h).getD 100 : NodeSize })
  let sorted := stableSortBy (fun a b => b.height < a.height) nodeSizes
  let rows := sorted.foldl
    (specInsertNode config.maxRowWidth config.horizontalGap) []
  rowsToPacked (stableSortBy (fun a b => b.height < a.height) rows)
    config.verticalGap

/-- The original claim's auto packing, taken literally: an element goes
into the first row whose accumulated width plus the element's width
stays under the budget (no gap) and whose height is within the band;
returns the row grouping (tallest row first). -/
def packAutoClaimLiteral (nodeIds : List Nat) (sizes : List (Nat × Sz))
    (maxRowWidth : ℚ) : List (List Nat) :=
  let nodeSizes := nodeIds.map
    (fun id =>
      let size := alGet sizes id
      { id := id, width := (size.map Sz.w).getD 200,
        height := (size.map Sz.h).getD 100 : NodeSize })
  let sorted := stableSortBy (fun a b => b.height < a.height) nodeSizes
  let fits := fun (row : WorkRow) (node : NodeSize) =>
    (row.currentWidth + node.width < maxRowWidth : Bool) &&
      ((1 / 2 : ℚ) ≤ row.height / node.height ∧ row.height / node.height ≤ 2)
  let rows := sorted.foldl
    (fun rows node =>
      match rows.findIdx? (fun row => fits row node) with
      | some i =>
        listSetAt rows i
          (fun row =>
            { nodes := row.nodes ++ [node]
              height := max row.height node.height
              currentWidth := row.currentWidth + node.width })
      | none =>
        rows ++ [{ nodes := [node], height := node.height,
                   currentWidth := node.width }])
    []
  (stableSortBy (fun a b => b.height < a.height) rows).map
    (fun row => row.nodes.map NodeSize.id)

/-- The landing point `restoreReroutePositions` actually computes for
chain element `i`: interpolation at `t = (i+1)/(k+1)` from the source's
output anchor to the centroid of the targets' top-left positions,
centered; `none` when the source or every target is unresolvable. -/
def codeChainPoint (positions : List (Nat × Pt)) (sizes : List (Nat × Sz))
    (chain : RerouteChain) (i : Nat) : Option Pt :=
  if chain.nodes.length = 0 ∨ chain.targets.length = 0 then none
  else
    match alGet positions chain.sourceNode, alGet sizes chain.sourceNode with
    | some sourcePos, some sourceSize =>
      let validTargets := chain.targets.filterMap (fun t => alGet positions t.1)
      if validTargets.length = 0 then none
      else
        let n : ℚ := validTargets.length
        let endX := (validTargets.foldl (fun s p => s + p.x) 0) / n
        let endY := (validTargets.foldl (fun s p => s + p.y) 0) / n
        let startX := sourcePos.x + sourceSize.w
        let startY := sourcePos.y + sourceSize.h / 2
        let count : ℚ := chain.nodes.length
        let t : ℚ := ((i : ℚ) + 1) / (count + 1)
        let rerouteId := chain.nodes.getD i 0
        let rerouteSize := (alGet sizes rerouteId).getD { w := 90, h := 26 }
        some { x := startX + (endX - startX) * t - rerouteSize.w / 2,
               y := startY + (endY - startY) * t - rerouteSize.h / 2 }
    | _, _ => none

/-- The landing point claim C9 predicts, taken literally: the segment
ends at the centroid of the targets' input anchors (left edge,
vertical middle), not of their top-left positions. -/
def claimChainPoint (positions : List (Nat × Pt)) (sizes : List (Nat × Sz))
    (chain : RerouteChain) (i : Nat) : Option Pt :=
  if chain.nodes.length = 0 ∨ chain.targets.length = 0 then none
  else
    match alGet positions chain.sourceNode, alGet sizes chain.sourceNode with
    | some sourcePos, some sourceSize =>
      let anchors := chain.targets.filterMap
        (fun t =>
          match alGet positions t.1, alGet sizes t.1 with
          | some p, some s => some ({ x := p.x, y := p.y + s.h / 2 : Pt })
          | _, _ => none)
      if anchors.length = 0 then none
      else
        let n : ℚ := anchors.length
        let endX := (anchors.foldl (fun s p => s + p.x) 0) / n
        let endY := (anchors.foldl (fun s p => s + p.y) 0) / n
        let startX := sourcePos.x + sourceSize.w
        let startY := sourcePos.y + sourceSize.h / 2
        let count : ℚ := chain.nodes.length
        let t : ℚ := ((i : ℚ) + 1) / (count + 1)
        let rerouteId := chain.nodes.getD i 0
        let rerouteSize := (alGet sizes rerouteId).getD { w := 90, h := 26 }
        some { x := startX + (endX - startX) * t - rerouteSize.w / 2,
               y := startY + (endY - startY) * t - rerouteSize.h / 2 }
    | _, _ => none

/-- All reroute ids written by a chain list. -/
def chainWriteIds (chains : List RerouteChain) : List Nat :=
  chains.foldl (fun acc c => acc ++ c.nodes) []

/-- Test-graph node constructor. -/
def mkNode (id : Nat) (t : String) (px py w h : ℚ)
    (ins : List (Option Nat)) (outs : List (List Nat)) (pin : Bool) : LNode :=
  { id := id, ntype := t, title := t, posX := px, posY := py,
    sizeW := w, sizeH := h, inputLinks := ins, outputLinks := outs,
    pinned := pin, locked := false }

/-- C1 failing input: a group with one connected member, a standalone
sink, and a pinned link-less node placed where the group's box lands
after the first run. -/
def ce1Graph : LGraph :=
  { nodes :=
      [ mkNode 1 "A" 100 200 200 100 [] [[10]] false
      , mkNode 2 "C" 2000 100 200 100 [some 10] [] false
      , mkNode 3 "Note" 500 150 200 100 [] [] true ]
    groups := [{ id := 1, title := "G", posX := 50, posY := 50,
                 sizeW := 400, sizeH := 1400 }]
    links := [{ id := 10, origin_id := 1, origin_slot := 0,
                target_id := 2, target_slot := 0, ltype := "X" }] }

/-- C6 failing input: a group whose two members are linked internally,
the downstream member pinned. -/
def ce6Graph : LGraph :=
  { nodes :=
      [ mkNode 1 "A" 100 200 200 100 [] [[20]] false
      , mkNode 2 "B" 100 400 200 100 [some 20] [] true ]
    groups := [{ id := 1, title := "G", posX := 50, posY := 50,
                 sizeW := 400, sizeH := 1400 }]
    links := [{ id := 20, origin_id := 1, origin_slot := 0,
                target_id := 2, target_slot := 0, ltype := "X" }] }

/-- C7 failing input: selected group `P` (id 1) with two empty sibling
groups `A` and `B`; node 7 lies outside every group but inside where
`B`'s box is teleported mid-run. -/
def ce7Graph : LGraph :=
  { nodes :=
      [ mkNode 7 "Note" (-4850) 280 50 50 [] [] false ]
    groups :=
      [ { id := 1, title := "P", posX := 0, posY := 0,
          sizeW := 10000, sizeH := 10000 }
      , { id := 2, title := "A", posX := 5000, posY := 100,
          sizeW := 1000, sizeH := 1000 }
      , { id := 3, title := "B", posX := 100, posY := 200,
          sizeW := 100, sizeH := 100 } ]
    links := [] }

/-- C5 counterexample input: a single link-less `Reroute` node. -/
def c5Graph : LGraph :=
  { nodes := [ mkNode 1 "Reroute" 0 0 90 26 [] [] false ]
    groups := [], links := [] }

/-- C5 witness input: a reroute, a linked pair, and a link-less note. -/
def c5wGraph : LGraph :=
  { nodes :=
      [ mkNode 1 "Reroute" 0 0 90 26 [] [] false
      , mkNode 2 "A" 0 0 200 100 [] [[1]] false
      , mkNode 3 "B" 0 0 200 100 [some 1] [] false
      , mkNode 4 "Note" 0 0 150 80 [] [] false ]
    groups := []
    links := [{ id := 1, origin_id := 2, origin_slot := 0,
                target_id := 3, target_slot := 0, ltype := "X" }] }

/-- C8 counterexample data: two equal-height elements whose widths fit
the budget without the gap but not with it. -/
def c8Ids : List Nat := [1, 2]

/-- Sizes for the C8 counterexample. -/
def c8Sizes : List (Nat × Sz) := [(1, { w := 50, h := 100 }),
  (2, { w := 45, h := 100 })]

/-- Config for the C8 counterexample: auto mode, budget 100, gap 10. -/
def c8Config : LayoutConfig :=
  { DEFAULT_CONFIG with
    maxColumns := 0
    maxRowWidth := 100
    horizontalGap := 10 }

/-- C9 counterexample chain: one reroute between a source and one
target. -/
def c9Chain : RerouteChain :=
  { nodes := [2], sourceNode := 1, sourceSlot := 0, targets := [(3, 0)] }

/-- C9 counterexample positions. -/
def c9Pos : List (Nat × Pt) := [(1, { x := 0, y := 0 }),
  (3, { x := 200, y := 100 })]

/-- C9 counterexample sizes. -/
def c9Sizes : List (Nat × Sz) := [(1, { w := 100, h := 100 }),
  (3, { w := 100, h := 100 }), (2, { w := 90, h := 26 })]

/-- C3 counterexample: a disconnected node (priority 10) just left of a
container (priority 100), overlapping it. -/
def c3NodeEntity : LayoutEntity :=
  { ref := EntityRef.node 1, priority := 10, x := 0, y := 0,
    width := 100, height := 100 }

/-- The container entity of the C3 counterexample. -/
def c3GroupEntity : LayoutEntity :=
  { ref := EntityRef.group 0, priority := 100, x := 10, y := 0,
    width := 100, height := 100 }

/-- C2/C3 witness state: two ungrouped overlapping nodes, one
disconnected. -/
def cwState : LayoutState :=
  { nodes := [], layers := [], layoutGroups := [], groupBoxes := []
    config := DEFAULT_CONFIG
    nodeToGroup := [], groupRepresentatives := []
    allNodes := [(1, mkNode 1 "A" 0 0 200 100 [] [] false),
                 (2, mkNode 2 "Note" 50 20 200 100 [] [] false)]
    groupsByDepth := [], disconnectedNodes := [2], rerouteChains := [] }

/-- C4 witness state: two layout nodes `1 → 2` with unassigned layers. -/
def c4State : LayoutState :=
  { nodes :=
      [ (1, { id := 1, layer := -1, orderInLayer := 0, predecessors := [],
              successors := [2], width := 200, height := 100, x := 0, y := 0,
              isGroupRepresentative := false, groupIdx := none })
      , (2, { id := 2, layer := -1, orderInLayer := 0, predecessors := [1],
              successors := [], width := 200, height := 100, x := 0, y := 0,
              isGroupRepresentative := false, groupIdx := none }) ]
    layers := [], layoutGroups := [], groupBoxes := []
    config := DEFAULT_CONFIG
    nodeToGroup := [], groupRepresentatives := [], allNodes := []
    groupsByDepth := [], disconnectedNodes := [], rerouteChains := [] }

/-! # Theorems

## Association-list and set basics -/

theorem mem_sAdd {l : List Nat} {k x : Nat} : x ∈ sAdd l k ↔ x ∈ l ∨ x = k := by
  unfold sAdd
  split
  · next h =>
    constructor
    · exact fun hx => Or.inl hx
    · rintro (hx | rfl)
      · exact hx
      · exact h
  · next h => simp [List.mem_append]

theorem alGet_alSet_eq {α : Type} (l : List (Nat × α)) (k : Nat) (v : α) :
    alGet (alSet l k v) k = some v := by
  induction l with
  | nil => simp [alSet, alGet]
  | cons kv rest ih =>
    by_cases h : kv.1 = k
    · simp [alSet, alGet, h]
    · simp [alSet, alGet, h, ih]

theorem alGet_alSet_ne {α : Type} (l : List (Nat × α)) (k k2 : Nat) (v : α)
    (h : k ≠ k2) : alGet (alSet l k v) k2 = alGet l k2 := by
  induction l with
  | nil => simp [alSet, alGet, h]
  | cons kv rest ih =>
    by_cases h2 : kv.1 = k
    · simp [alSet, alGet, h2, h]
    · by_cases h3 : kv.1 = k2 <;> simp [alSet, alGet, h2, h3, ih, Ne.symm h]

/-! ## Claim C5: classifier disconnected-set characterization -/

theorem mem_linkFold (links : List LLink) (acc : List Nat) (x : Nat) :
    (x ∈ links.foldl
        (fun a link => sAdd (sAdd a link.origin_id) link.target_id) acc) ↔
      x ∈ acc ∨ ∃ link ∈ links, link.origin_id = x ∨ link.target_id = x := by
  induction links generalizing acc with
  | nil => simp
  | cons l ls ih =>
    rw [List.foldl_cons, ih]
    simp only [mem_sAdd, List.mem_cons]
    constructor
    · rintro (((hx | rfl) | rfl) | ⟨link, hl, ho⟩)
      · exact Or.inl hx
      · exact Or.inr ⟨l, Or.inl rfl, Or.inl rfl⟩
      · exact Or.inr ⟨l, Or.inl rfl, Or.inr rfl⟩
      · exact Or.inr ⟨link, Or.inr hl, ho⟩
    · rintro (hx | ⟨link, (rfl | hl), (ho | ho)⟩)
      · exact Or.inl (Or.inl (Or.inl hx))
      · exact Or.inl (Or.inl (Or.inr ho.symm))
      · exact Or.inl (Or.inr ho.symm)
      · exact Or.inr ⟨link, hl, Or.inl ho⟩
      · exact Or.inr ⟨link, hl, Or.inr ho⟩

theorem mem_linkEndpointIds (links : List LLink) (x : Nat) :
    x ∈ linkEndpointIds links ↔
      ∃ link ∈ links, link.origin_id = x ∨ link.target_id = x := by
  unfold linkEndpointIds
  rw [mem_linkFold]
  simp

theorem classify_foldl_disc (hl : List Nat) (l : List LNode)
    (acc : ClassifiedNodes) (x : Nat) :
    (x ∈ (l.foldl (classifyStep hl) acc).disconnected) ↔
      x ∈ acc.disconnected ∨
        ∃ n ∈ l, isRerouteType n.ntype = false ∧ n.id ∉ hl ∧ n.id = x := by
  induction l generalizing acc with
  | nil => simp
  | cons n ns ih =>
    rw [List.foldl_cons, ih]
    unfold classifyStep
    by_cases hr : isRerouteType n.ntype <;> by_cases hm : n.id ∈ hl <;>
      simp [hr, hm, mem_sAdd] <;> aesop

theorem classify_foldl_rer (hl : List Nat) (l : List LNode)
    (acc : ClassifiedNodes) (x : Nat) :
    (x ∈ (l.foldl (classifyStep hl) acc).reroutes) ↔
      x ∈ acc.reroutes ∨ ∃ n ∈ l, isRerouteType n.ntype = true ∧ n.id = x := by
  induction l generalizing acc with
  | nil => simp
  | cons n ns ih =>
    rw [List.foldl_cons, ih]
    unfold classifyStep
    by_cases hr : isRerouteType n.ntype <;> by_cases hm : n.id ∈ hl <;>
      simp [hr, hm, mem_sAdd] <;> aesop

/-- C5 counterexample: in a graph whose only node is a link-less
`Reroute`, that node has zero incident links yet is not placed in the
disconnected set, so the claimed equivalence fails as stated. -/
theorem c5_counterexample :
    ¬ (∀ n ∈ c5Graph.nodes,
        (n.id ∈ (classifyNodes c5Graph).disconnected ↔
          ¬ hasIncidentLink c5Graph n.id)) := by
  decide

/-- C5 (amended): for every node whose type is not a reroute type,
`classifyNodes` places it in the disconnected set iff it has zero
incident links; a reroute-typed node is placed in the reroutes set and
(ids being unique) never in the disconnected set. -/
theorem classifyNodes_disconnected_iff (graph : LGraph)
    (hids : (graph.nodes.map LNode.id).Nodup) :
    ∀ n ∈ graph.nodes,
      (isRerouteType n.ntype = false →
        (n.id ∈ (classifyNodes graph).disconnected ↔
          ¬ hasIncidentLink graph n.id)) ∧
      (isRerouteType n.ntype = true →
        n.id ∈ (classifyNodes graph).reroutes ∧
          n.id ∉ (classifyNodes graph).disconnected) := by
  intro n hn
  constructor
  · intro hr
    unfold classifyNodes
    rw [classify_foldl_disc]
    simp only [List.not_mem_nil, false_or]
    constructor
    · rintro ⟨m, hm, hmr, hmnot, hmeq⟩
      intro hinc
      exact hmnot (by
        rw [mem_linkEndpointIds]
        rw [hmeq]
        exact hinc)
    · intro hninc
      refine ⟨n, hn, hr, ?_, rfl⟩
      rw [mem_linkEndpointIds]
      exact hninc
  · intro hr
    constructor
    · unfold classifyNodes
      rw [classify_foldl_rer]
      exact Or.inr ⟨n, hn, hr, rfl⟩
    · intro hd
      unfold classifyNodes at hd
      rw [classify_foldl_disc] at hd
      simp only [List.not_mem_nil, false_or] at hd
      obtain ⟨m, hm, hmr, _, hmeq⟩ := hd
      have : m = n := (List.inj_on_of_nodup_map hids) hm hn hmeq
      rw [this] at hmr
      rw [hr] at hmr
      simp at hmr

/-- C5 witness: the amended characterization applied to a concrete
graph with a reroute, a linked pair, and a link-less note. -/
theorem c5_witness :
    (c5wGraph.nodes.map LNode.id).Nodup ∧
    ∀ n ∈ c5wGraph.nodes,
      (isRerouteType n.ntype = false →
        (n.id ∈ (classifyNodes c5wGraph).disconnected ↔
          ¬ hasIncidentLink c5wGraph n.id)) ∧
      (isRerouteType n.ntype = true →
        n.id ∈ (classifyNodes c5wGraph).reroutes ∧
          n.id ∉ (classifyNodes c5wGraph).disconnected) :=
  ⟨by decide, classifyNodes_disconnected_iff c5wGraph (by decide)⟩

/-! ## Claim C8: auto-mode bin packing -/

unseal Rat.add Rat.sub Rat.mul Rat.inv in
/-- C8 counterexample: with budget 100 and horizontal gap 10, element 2
(width 45) fits row 1 (accumulated width 50) by the claim's test
(50 + 45 < 100) but the code also adds the gap (50 + 10 + 45 > 100) and
opens a new row, so the produced rows differ from the claim's. -/
theorem c8_counterexample :
    (packNodesIntoRows c8Ids c8Sizes c8Config).map PackedRow.nodes ≠
      packAutoClaimLiteral c8Ids c8Sizes c8Config.maxRowWidth := by
  decide

theorem rowFits_eq_spec (b g : ℚ) (row : WorkRow) (node : NodeSize) :
    rowFits row node b g = specRowFits b g row node := by
  rw [Bool.eq_iff_iff]
  unfold rowFits specRowFits specRowCompatible
  by_cases h : row.height > 0 <;> simp [h] <;> norm_num

theorem placeFirstFit_eq_findIdx (b g : ℚ) (node : NodeSize) :
    ∀ rows : List WorkRow,
      placeFirstFit node b g rows =
        (rows.findIdx? (fun row => specRowFits b g row node)).map
          (fun i =>
            listSetAt rows i
              (fun row =>
                { nodes := row.nodes ++ [node]
                  height := max row.height node.height
                  currentWidth := row.currentWidth + g + node.width })) := by
  intro rows
  induction rows with
  | nil => simp [placeFirstFit]
  | cons row rest ih =>
    by_cases h : rowFits row node b g
    · have hs : specRowFits b g row node = true := by
        rw [← rowFits_eq_spec]
        exact h
      simp [placeFirstFit, h, hs, List.findIdx?_cons, listSetAt]
    · have hs : ¬ specRowFits b g row node = true := by
        rw [← rowFits_eq_spec]
        exact h
      simp only [placeFirstFit, if_neg h, List.findIdx?_cons, if_neg hs, ih]
      cases hf : rest.findIdx? (fun row => specRowFits b g row node) with
      | none => simp [hf]
      | some i => simp [hf, listSetAt]

theorem placeFirstFit_eq_specInsert (b g : ℚ) (node : NodeSize)
    (rows : List WorkRow) :
    (match placeFirstFit node b g rows with
     | some rows2 => rows2
     | none => rows ++ [{ nodes := [node], height := node.height,
                          currentWidth := node.width }]) =
      specInsertNode b g rows node := by
  rw [placeFirstFit_eq_findIdx]
  unfold specInsertNode
  cases hf : rows.findIdx? (fun row => specRowFits b g row node) <;> simp

/-- C8 (amended): with the auto column policy (`maxColumns = 0`),
`packNodesIntoRows` equals the claim's packing amended in the fit test:
elements tallest first, each placed into the first row whose accumulated
width plus a horizontal gap plus the element's width stays within the
max-row-width budget and whose height is within the factor-two band,
else a new row; rows sorted by height descending. -/
theorem packNodesIntoRows_auto_spec (nodeIds : List Nat)
    (sizes : List (Nat × Sz)) (config : LayoutConfig)
    (h : config.maxColumns = 0) :
    packNodesIntoRows nodeIds sizes config = packAutoSpec nodeIds sizes
      config := by
  unfold packNodesIntoRows packAutoSpec
  by_cases he : nodeIds.isEmpty
  · have hnil : nodeIds = [] := List.isEmpty_iff.mp he
    subst hnil
    simp [stableSortBy, rowsToPacked]
  · have h1 : ¬ config.maxColumns = 1 := by
      rw [h]
      decide
    have h2 : ¬ config.maxColumns ≥ 2 := by
      rw [h]
      decide
    simp only [he, if_neg h1, if_neg h2, if_false, Bool.false_eq_true]
    unfold packByWidth
    simp only [placeFirstFit_eq_specInsert]

/-- C8 witness: the amended equivalence at the counterexample's inputs. -/
theorem c8_witness :
    c8Config.maxColumns = 0 ∧
    packNodesIntoRows c8Ids c8Sizes c8Config =
      packAutoSpec c8Ids c8Sizes c8Config :=
  ⟨rfl, packNodesIntoRows_auto_spec c8Ids c8Sizes c8Config rfl⟩

/-! ## Claim C9: reroute-chain restoration -/

theorem alGet_fold_alSet_frame {α : Type} (g : Nat × Nat → α) :
    ∀ (l : List (Nat × Nat)) (pos : List (Nat × α)) (a : Nat),
      a ∉ l.map Prod.fst →
      alGet (l.foldl (fun pos p => alSet pos p.1 (g p)) pos) a =
        alGet pos a := by
  intro l
  induction l with
  | nil =>
    intro pos a _
    rfl
  | cons b rest ih =>
    intro pos a ha
    simp only [List.map_cons, List.mem_cons] at ha
    push_neg at ha
    simp only [List.foldl_cons]
    rw [ih _ a ha.2, alGet_alSet_ne]
    exact fun h => ha.1 h.symm

theorem alGet_fold_alSet {α : Type} (g : Nat × Nat → α) :
    ∀ (l : List (Nat × Nat)) (pos : List (Nat × α)) (a : Nat) (j : Nat),
      (a, j) ∈ l → (l.map Prod.fst).Nodup →
      alGet (l.foldl (fun pos p => alSet pos p.1 (g p)) pos) a =
        some (g (a, j)) := by
  intro l
  induction l with
  | nil =>
    intro pos a j hm _
    simp at hm
  | cons b rest ih =>
    intro pos a j hm hnd
    simp only [List.map_cons, List.nodup_cons] at hnd
    simp only [List.mem_cons] at hm
    simp only [List.foldl_cons]
    cases hm with
    | inl h =>
      rw [alGet_fold_alSet_frame]
      · rw [← h, alGet_alSet_eq]
      · intro hmem
        exact hnd.1 (h ▸ hmem)
    | inr h => exact ih _ a j h hnd.2

theorem mem_zip_of_getElem {α β : Type} :
    ∀ (l : List α) (m : List β) (i : Nat) (h1 : i < l.length)
      (h2 : i < m.length),
      (l.get ⟨i, h1⟩, m.get ⟨i, h2⟩) ∈ l.zip m := by
  intro l
  induction l with
  | nil =>
    intro m i h1
    simp at h1
  | cons x xs ih =>
    intro m i h1 h2
    cases m with
    | nil => simp at h2
    | cons y ys =>
      cases i with
      | zero => simp [List.zip_cons_cons]
      | succ n =>
        simp only [List.zip_cons_cons, List.get_cons_succ, List.mem_cons]
        right
        exact ih ys n (Nat.lt_of_succ_lt_succ h1) (Nat.lt_of_succ_lt_succ h2)

unseal Rat.add Rat.sub Rat.mul Rat.inv in
/-- C9 counterexample: for a one-element chain from source 1 to target 3,
the code lands the reroute at the midpoint toward the centroid of the
target's TOP-LEFT position, (105, 62), not toward the centroid of the
target's input anchor (left edge, vertical middle) as the claim states,
which would give (105, 87). -/
theorem c9_counterexample :
    alGet (restoreReroutePositions [c9Chain] c9Pos c9Sizes) 2 ≠
      claimChainPoint c9Pos c9Sizes c9Chain 0 ∧
    alGet (restoreReroutePositions [c9Chain] c9Pos c9Sizes) 2 =
      codeChainPoint c9Pos c9Sizes c9Chain 0 := by
  constructor
  · decide
  · decide

/-- C9 (amended): for a chain with distinct element ids,
`restoreReroutePositions` places element `i` (0-based) at the
interpolation point `t = (i+1)/(k+1)` on the segment from the source's
output anchor to the centroid of the resolvable targets' TOP-LEFT
positions, centered by the element's size (the value `codeChainPoint`
computes); and when the chain is unresolvable (no elements, no targets,
unresolved source, or no target with a position) the positions map is
returned unchanged. -/
theorem restoreReroutePositions_code_points (positions : List (Nat × Pt))
    (sizes : List (Nat × Sz)) (chain : RerouteChain)
    (hnodup : chain.nodes.Nodup) :
    (∀ i, i < chain.nodes.length →
      (codeChainPoint positions sizes chain i).isSome →
      alGet (restoreReroutePositions [chain] positions sizes)
          (chain.nodes.getD i 0) =
        codeChainPoint positions sizes chain i) ∧
    (codeChainPoint positions sizes chain 0 = none →
      restoreReroutePositions [chain] positions sizes = positions) := by
  have hrr : restoreReroutePositions [chain] positions sizes =
      restoreChain positions sizes chain := rfl
  rw [hrr]
  constructor
  · intro i hi hsome
    by_cases h0 : chain.nodes.length = 0 ∨ chain.targets.length = 0
    · rw [codeChainPoint, if_pos h0] at hsome
      simp at hsome
    · cases hsp : alGet positions chain.sourceNode with
      | none =>
        rw [codeChainPoint, if_neg h0] at hsome
        simp [hsp] at hsome
      | some sourcePos =>
        cases hss : alGet sizes chain.sourceNode with
        | none =>
          rw [codeChainPoint, if_neg h0] at hsome
          simp [hsp, hss] at hsome
        | some sourceSize =>
          by_cases hv :
              (chain.targets.filterMap
                (fun t => alGet positions t.1)).length = 0
          · rw [codeChainPoint, if_neg h0] at hsome
            simp [hsp, hss, hv] at hsome
          · rw [restoreChain, if_neg h0, codeChainPoint, if_neg h0]
            simp only [hsp, hss, if_neg hv]
            have hil : i < (List.range chain.nodes.length).length := by
              simpa using hi
            have hmem : (chain.nodes.getD i 0, i) ∈
                chain.nodes.zip (List.range chain.nodes.length) := by
              have hg := mem_zip_of_getElem chain.nodes
                (List.range chain.nodes.length) i hi hil
              have e1 : chain.nodes.get ⟨i, hi⟩ = chain.nodes.getD i 0 := by
                rw [List.getD_eq_getElem]
                rfl
              have e2 : (List.range chain.nodes.length).get ⟨i, hil⟩ = i := by
                simp
              rw [e1, e2] at hg
              exact hg
            have hnd : ((chain.nodes.zip
                (List.range chain.nodes.length)).map Prod.fst).Nodup := by
              rw [List.map_fst_zip]
              · exact hnodup
              · simp
            exact alGet_fold_alSet _ _ positions _ i hmem hnd
  · intro hnone
    by_cases h0 : chain.nodes.length = 0 ∨ chain.targets.length = 0
    · rw [restoreChain, if_pos h0]
    · cases hsp : alGet positions chain.sourceNode with
      | none =>
        rw [restoreChain, if_neg h0]
        simp [hsp]
      | some sourcePos =>
        cases hss : alGet sizes chain.sourceNode with
        | none =>
          rw [restoreChain, if_neg h0]
          simp [hsp, hss]
        | some sourceSize =>
          by_cases hv :
              (chain.targets.filterMap
                (fun t => alGet positions t.1)).length = 0
          · rw [restoreChain, if_neg h0]
            simp [hsp, hss, hv]
          · exfalso
            rw [codeChainPoint, if_neg h0] at hnone
            simp [hsp, hss, hv] at hnone

unseal Rat.add Rat.sub Rat.mul Rat.inv in
/-- C9 witness: the amended characterization applied to the
counterexample chain at element 0. -/
theorem c9_witness :
    c9Chain.nodes.Nodup ∧ 0 < c9Chain.nodes.length ∧
    (codeChainPoint c9Pos c9Sizes c9Chain 0).isSome ∧
    alGet (restoreReroutePositions [c9Chain] c9Pos c9Sizes)
        (c9Chain.nodes.getD 0 0) =
      codeChainPoint c9Pos c9Sizes c9Chain 0 :=
  ⟨by decide, by decide, by decide,
    (restoreReroutePositions_code_points c9Pos c9Sizes c9Chain
      (by decide)).1 0 (by decide) (by decide)⟩

/-! ## Claim C3: scanline push direction -/

theorem mem_insertB {α : Type} (sb : α → α → Bool) (x : α) :
    ∀ (l : List α) (b : α), b ∈ insertB sb x l ↔ b = x ∨ b ∈ l := by
  intro l
  induction l with
  | nil =>
    intro b
    simp [insertB]
  | cons y ys ih =>
    intro b
    by_cases h : sb y x = true
    · simp only [insertB, if_pos h, List.mem_cons, ih b]
      tauto
    · simp only [insertB, if_neg h, List.mem_cons]

theorem mem_stableSortBy {α : Type} (sb : α → α → Bool) :
    ∀ (l : List α) (b : α), b ∈ stableSortBy sb l ↔ b ∈ l := by
  intro l
  induction l with
  | nil =>
    intro b
    simp [stableSortBy]
  | cons x xs ih =>
    intro b
    simp [stableSortBy, mem_insertB, ih b]

theorem stableSortBy_cons_first {α : Type} (sb : α → α → Bool) (a : α)
    (rest : List α) (h : ∀ b ∈ rest, sb b a = false) :
    stableSortBy sb (a :: rest) = a :: stableSortBy sb rest := by
  show insertB sb a (stableSortBy sb rest) = a :: stableSortBy sb rest
  cases hs : stableSortBy sb rest with
  | nil => rfl
  | cons y ys =>
    have hy : y ∈ stableSortBy sb rest := by
      rw [hs]
      exact List.mem_cons_self _ _
    have hy2 : y ∈ rest := (mem_stableSortBy sb rest y).mp hy
    show insertB sb a (y :: ys) = a :: y :: ys
    simp [insertB, h y hy2]

theorem pushFold_preserve (push : LayoutEntity →
      LayoutEntity × (List (Nat × LNode) × List LGroup) →
      LayoutEntity × (List (Nat × LNode) × List LGroup))
    (P : LayoutEntity → Prop)
    (hpush : ∀ anchor st b, P b → P ((push anchor (b, st)).1)) :
    ∀ (l : List LayoutEntity) (anchor : LayoutEntity)
      (acc : List LayoutEntity × (List (Nat × LNode) × List LGroup)),
      (∀ b ∈ acc.1, P b) → (∀ b ∈ l, P b) →
      ∀ b ∈ (l.foldl
        (fun (acc : List LayoutEntity ×
            (List (Nat × LNode) × List LGroup)) b =>
          let r := push anchor (b, acc.2)
          (acc.1 ++ [r.1], r.2)) acc).1, P b := by
  intro l
  induction l with
  | nil =>
    intro anchor acc hacc _ b hb
    exact hacc b hb
  | cons x xs ih =>
    intro anchor acc hacc hl b hb
    simp only [List.foldl_cons] at hb
    refine ih anchor _ ?_ (fun c hc => hl c (List.mem_cons_of_mem _ hc)) b hb
    intro c hc
    simp only [List.mem_append, List.mem_singleton] at hc
    cases hc with
    | inl h2 => exact hacc c h2
    | inr h2 =>
      exact h2 ▸ hpush anchor acc.2 x (hl x (List.mem_cons_self _ _))

theorem pushAll_all (push : LayoutEntity →
      LayoutEntity × (List (Nat × LNode) × List LGroup) →
      LayoutEntity × (List (Nat × LNode) × List LGroup))
    (P : LayoutEntity → Prop)
    (hpush : ∀ anchor st b, P b → P ((push anchor (b, st)).1))
    (anchor : LayoutEntity) (rest : List LayoutEntity)
    (st : List (Nat × LNode) × List LGroup)
    (h : ∀ b ∈ rest, P b) :
    ∀ b ∈ (pushAll push anchor rest st).1, P b := by
  intro b hb
  exact pushFold_preserve push P hpush rest anchor ([], st)
    (by simp) h b hb

theorem processScanF_all (push : LayoutEntity →
      LayoutEntity × (List (Nat × LNode) × List LGroup) →
      LayoutEntity × (List (Nat × LNode) × List LGroup))
    (P : LayoutEntity → Prop)
    (hpush : ∀ anchor st b, P b → P ((push anchor (b, st)).1)) :
    ∀ (fuel : Nat) (es : List LayoutEntity)
      (st : List (Nat × LNode) × List LGroup),
      (∀ b ∈ es, P b) → ∀ b ∈ (processScanF push fuel es st).1, P b := by
  intro fuel
  induction fuel with
  | zero =>
    intro es st hes b hb
    exact hes b hb
  | succ fuel ih =>
    intro es st hes b hb
    cases es with
    | nil => simp [processScanF] at hb
    | cons a rest =>
      simp only [processScanF] at hb
      rcases List.mem_cons.mp hb with h2 | h2
      · exact h2 ▸ hes a (List.mem_cons_self _ _)
      · exact ih _ _ (pushAll_all push P hpush a rest st
          (fun c hc => hes c (List.mem_cons_of_mem _ hc))) b h2

theorem processScan_cons (push : LayoutEntity →
      LayoutEntity × (List (Nat × LNode) × List LGroup) →
      LayoutEntity × (List (Nat × LNode) × List LGroup))
    (P : LayoutEntity → Prop)
    (hpush : ∀ anchor st b, P b → P ((push anchor (b, st)).1))
    (a : LayoutEntity) (rest : List LayoutEntity)
    (st : List (Nat × LNode) × List LGroup)
    (h : ∀ b ∈ rest, P b) :
    ∃ out st2, processScan push (a :: rest) st = (a :: out, st2) ∧
      ∀ b ∈ out, P b := by
  refine ⟨_, _, rfl, ?_⟩
  exact processScanF_all push P hpush rest.length _ _
    (pushAll_all push P hpush a rest st h)

theorem scanLoop_first (sb : LayoutEntity → LayoutEntity → Bool)
    (push : LayoutEntity →
      LayoutEntity × (List (Nat × LNode) × List LGroup) →
      LayoutEntity × (List (Nat × LNode) × List LGroup))
    (hasym : ∀ x y, sb x y = true → sb y x = false)
    (hpush : ∀ anchor st b c, sb c b = true →
      sb c ((push anchor (b, st)).1) = true) :
    ∀ (fuel : Nat) (a : LayoutEntity) (rest : List LayoutEntity)
      (st : List (Nat × LNode) × List LGroup),
      (∀ b ∈ rest, sb a b = true) →
      ∃ tl st2, scanLoop sb push fuel (a :: rest) st = (a :: tl, st2) ∧
        ∀ b ∈ tl, sb a b = true := by
  intro fuel
  induction fuel with
  | zero =>
    intro a rest st h
    exact ⟨rest, st, rfl, h⟩
  | succ fuel ih =>
    intro a rest st h
    have hrest' : ∀ b ∈ stableSortBy sb rest, sb a b = true :=
      fun b hb => h b ((mem_stableSortBy sb rest b).mp hb)
    have hsort : stableSortBy sb (a :: rest) = a :: stableSortBy sb rest :=
      stableSortBy_cons_first sb a rest (fun b hb => hasym a b (h b hb))
    obtain ⟨out, st2, hps, hout⟩ := processScan_cons push
      (fun b => sb a b = true)
      (fun anchor st b hb => hpush anchor st b a hb) a
      (stableSortBy sb rest) st hrest'
    simp only [scanLoop, hsort, hps]
    by_cases heq : a :: out = a :: stableSortBy sb rest
    · rw [if_pos heq]
      exact ⟨stableSortBy sb rest, st2, rfl, hrest'⟩
    · rw [if_neg heq]
      exact ih a out st2 hout

theorem entityBeforeX_asymm (x y : LayoutEntity)
    (h : entityBeforeX x y = true) : entityBeforeX y x = false := by
  simp only [entityBeforeX, decide_eq_true_eq] at h
  simp only [entityBeforeX, decide_eq_false_iff_not]
  rcases h with h | ⟨h1, h2⟩
  · rintro (h' | ⟨h1', h2'⟩)
    · exact absurd (lt_trans h h') (lt_irrefl _)
    · exact absurd h1' (ne_of_gt h)
  · rintro (h' | ⟨h1', h2'⟩)
    · rw [h1] at h'
      exact lt_irrefl _ h'
    · exact absurd (lt_trans h2 h2') (lt_irrefl _)

theorem entityBeforeY_asymm (x y : LayoutEntity)
    (h : entityBeforeY x y = true) : entityBeforeY y x = false := by
  simp only [entityBeforeY, decide_eq_true_eq] at h
  simp only [entityBeforeY, decide_eq_false_iff_not]
  rcases h with h | ⟨h1, h2⟩
  · rintro (h' | ⟨h1', h2'⟩)
    · exact absurd (lt_trans h h') (lt_irrefl _)
    · exact absurd h1' (ne_of_gt h)
  · rintro (h' | ⟨h1', h2'⟩)
    · rw [h1] at h'
      exact lt_irrefl _ h'
    · exact absurd (lt_trans h2 h2') (lt_irrefl _)

theorem pushX_preserves_beforeX (config : LayoutConfig)
    (lgs : List LayoutGroup) (anchor : LayoutEntity)
    (st : List (Nat × LNode) × List LGroup) (b c : LayoutEntity)
    (h : entityBeforeX c b = true) :
    entityBeforeX c ((pushX config lgs anchor (b, st)).1) = true := by
  simp only [entityBeforeX, decide_eq_true_eq] at h
  simp only [pushX]
  split
  · next hcond =>
    simp only [entityBeforeX, decide_eq_true_eq]
    left
    rcases h with h | ⟨h1, _⟩
    · exact lt_trans h hcond.2
    · rw [h1]
      exact hcond.2
  · simp only [entityBeforeX, decide_eq_true_eq]
    exact h

theorem pushY_preserves_beforeY (config : LayoutConfig)
    (lgs : List LayoutGroup) (anchor : LayoutEntity)
    (st : List (Nat × LNode) × List LGroup) (b c : LayoutEntity)
    (h : entityBeforeY c b = true) :
    entityBeforeY c ((pushY config lgs anchor (b, st)).1) = true := by
  simp only [entityBeforeY, decide_eq_true_eq] at h
  simp only [pushY]
  split
  · next hcond =>
    simp only [entityBeforeY, decide_eq_true_eq]
    left
    rcases h with h | ⟨h1, _⟩
    · exact lt_trans h hcond.2
    · rw [h1]
      exact hcond.2
  · simp only [entityBeforeY, decide_eq_true_eq]
    exact h

unseal Rat.add Rat.sub Rat.mul Rat.inv in
/-- C3 counterexample: a disconnected node (priority 10) at x = 0
overlapping a container (priority 100) at x = 10 anchors first in scan
order (smaller x), and the X pass pushes the strictly higher-priority
container right to x = 200, so "the pushed entity is always the
lower-priority one" is false. -/
theorem c3_counterexample :
    c3NodeEntity.priority < c3GroupEntity.priority ∧
    ∃ e ∈ (scanlineResolveX DEFAULT_CONFIG []
        [c3NodeEntity, c3GroupEntity] ([], [])).1,
      e.ref = c3GroupEntity.ref ∧ c3GroupEntity.x < e.x := by
  constructor
  · decide
  · decide

/-- C3 (amended): the scanline passes order entities by coordinate
first and priority only on ties, so what is protected is not the
higher-priority entity but the strictly-first entity in scan order: an
entity strictly before every other (smaller x, or equal x and greater
priority, in the X pass; likewise with y in the Y pass) is never moved
by that pass — it comes out unchanged at the head of the entity list. -/
theorem scanline_first_never_moves (config : LayoutConfig)
    (lgs : List LayoutGroup) (a : LayoutEntity)
    (rest : List LayoutEntity)
    (st : List (Nat × LNode) × List LGroup) :
    ((∀ b ∈ rest, entityBeforeX a b = true) →
      ∃ tl st2, scanlineResolveX config lgs (a :: rest) st =
        (a :: tl, st2)) ∧
    ((∀ b ∈ rest, entityBeforeY a b = true) →
      ∃ tl st2, scanlineResolveY config lgs (a :: rest) st =
        (a :: tl, st2)) := by
  constructor
  · intro h
    obtain ⟨tl, st2, heq, _⟩ := scanLoop_first entityBeforeX
      (pushX config lgs) entityBeforeX_asymm
      (fun anchor st b c hcb =>
        pushX_preserves_beforeX config lgs anchor st b c hcb)
      ((a :: rest).length * 2) a rest st h
    exact ⟨tl, st2, heq⟩
  · intro h
    obtain ⟨tl, st2, heq, _⟩ := scanLoop_first entityBeforeY
      (pushY config lgs) entityBeforeY_asymm
      (fun anchor st b c hcb =>
        pushY_preserves_beforeY config lgs anchor st b c hcb)
      ((a :: rest).length * 2) a rest st h
    exact ⟨tl, st2, heq⟩

/-- C3 witness: the amended theorem at the counterexample node and a
container placed strictly after it in both scan orders. -/
theorem c3_witness :
    (∀ b ∈ [{ ref := EntityRef.group 0, priority := 100, x := 10, y := 5,
              width := 100, height := 100 : LayoutEntity }],
      entityBeforeX c3NodeEntity b = true) ∧
    (∀ b ∈ [{ ref := EntityRef.group 0, priority := 100, x := 10, y := 5,
              width := 100, height := 100 : LayoutEntity }],
      entityBeforeY c3NodeEntity b = true) ∧
    (∃ tl st2, scanlineResolveX DEFAULT_CONFIG []
        (c3NodeEntity ::
          [{ ref := EntityRef.group 0, priority := 100, x := 10, y := 5,
             width := 100, height := 100 : LayoutEntity }]) ([], []) =
      (c3NodeEntity :: tl, st2)) ∧
    (∃ tl st2, scanlineResolveY DEFAULT_CONFIG []
        (c3NodeEntity ::
          [{ ref := EntityRef.group 0, priority := 100, x := 10, y := 5,
             width := 100, height := 100 : LayoutEntity }]) ([], []) =
      (c3NodeEntity :: tl, st2)) :=
  ⟨by decide, by decide,
    (scanline_first_never_moves DEFAULT_CONFIG [] c3NodeEntity
      [{ ref := EntityRef.group 0, priority := 100, x := 10, y := 5,
         width := 100, height := 100 : LayoutEntity }] ([], [])).1
      (by decide),
    (scanline_first_never_moves DEFAULT_CONFIG [] c3NodeEntity
      [{ ref := EntityRef.group 0, priority := 100, x := 10, y := 5,
         width := 100, height := 100 : LayoutEntity }] ([], [])).2
      (by decide)⟩

/-! ## Claim C1: idempotence of the full layout -/

set_option maxRecDepth 100000 in
unseal Rat.add Rat.sub Rat.mul Rat.inv in
/-- C1 counterexample: on `ce1Graph`, node 1 lands at y = 125 after the
first run but a second run on the already-laid-out graph moves it to
y = 55 — a 70-pixel move, far beyond any small pixel tolerance.  (The
pinned node parked where the group's recomputed box lands changes the
group's membership between runs.) -/
theorem c1_counterexample :
    (∃ n ∈ (layoutGraph ce1Graph DEFAULT_CONFIG).1.nodes,
      n.id = 1 ∧ n.posX = 480 ∧ n.posY = 125) ∧
    (∃ n ∈ (layoutGraph (layoutGraph ce1Graph DEFAULT_CONFIG).1
        DEFAULT_CONFIG).1.nodes,
      n.id = 1 ∧ n.posX = 480 ∧ n.posY = 55) := by
  constructor
  · decide
  · decide

/-! ## Claim C6: pinned/locked elements -/

set_option maxRecDepth 100000 in
unseal Rat.add Rat.sub Rat.mul Rat.inv in
/-- C6 counterexample: the pinned node 2 of `ce6Graph`, a group member,
is moved by `layoutGraph` from (100, 400) to (430, 180) — the
edge-driven branch of the group-content positioning repositions pinned
members; and the pinned ungrouped node 3 of `ce1Graph` yields no
overlap-resolution entity at all, so pinned elements are not
"still considered for overlap checks" either. -/
theorem c6_counterexample :
    (∃ n ∈ ce6Graph.nodes,
      n.id = 2 ∧ n.pinned = true ∧ n.posX = 100 ∧ n.posY = 400) ∧
    (∃ n ∈ (layoutGraph ce6Graph DEFAULT_CONFIG).1.nodes,
      n.id = 2 ∧ n.pinned = true ∧ n.posX = 430 ∧ n.posY = 180) ∧
    (∀ e ∈ collectEntities (buildLayoutGraph ce1Graph DEFAULT_CONFIG),
      e.ref ≠ EntityRef.node 3) := by
  refine ⟨by decide, by decide, by decide⟩

/-! ## Claim C7: selected-group layout frame property -/

set_option maxRecDepth 100000 in
unseal Rat.add Rat.sub Rat.mul Rat.inv in
/-- C7 counterexample: in `ce7Graph`, node 7 starts at (-4850, 280),
strictly left of every group's box, so it is no member — direct or
nested — of any selected container; yet `layoutSelectedGroups` on
selection {group 1} moves it to (60, 1240).  (The parent-containment
check runs after sibling B's box has already been teleported over the
node, so the node is collected as a member of B and dragged along.) -/
theorem c7_counterexample :
    (∃ n ∈ ce7Graph.nodes, n.id = 7 ∧ n.posX = -4850 ∧ n.posY = 280) ∧
    (∀ g ∈ ce7Graph.groups, (-4850 : ℚ) < g.posX) ∧
    (∃ n ∈ (layoutSelectedGroups ce7Graph [1] DEFAULT_CONFIG).1.nodes,
      n.id = 7 ∧ n.posX = 60 ∧ n.posY = 1240) := by
  refine ⟨by decide, by decide, by decide⟩

/-! ## Claim C10: determinism of the full layout -/

/-- C10: `layoutGraph` is deterministic — structurally identical inputs
(same nodes with ids, types, sizes and initial positions, same links,
same groups) under the same configuration produce identical outputs,
node positions, group boxes and counts alike.  The model is a pure
function of the graph and configuration; the only quantity outside it
is the wall-clock `executionMs` of the source's result record. -/
theorem layoutGraph_deterministic (g1 g2 : LGraph) (cfg : LayoutConfig)
    (h : g1 = g2) : layoutGraph g1 cfg = layoutGraph g2 cfg := by
  rw [h]

/-- C10 witness: determinism at the `c5Graph` input. -/
theorem c10_witness :
    c5Graph = c5Graph ∧
    layoutGraph c5Graph DEFAULT_CONFIG = layoutGraph c5Graph DEFAULT_CONFIG :=
  ⟨rfl, layoutGraph_deterministic c5Graph c5Graph DEFAULT_CONFIG rfl⟩

/-! ## Claim C2: no overlaps after resolution -/

theorem pushY_establishes (config : LayoutConfig) (lgs : List LayoutGroup)
    (anchor : LayoutEntity) (b : LayoutEntity)
    (st : List (Nat × LNode) × List LGroup) :
    resolvedY config anchor ((pushY config lgs anchor (b, st)).1) := by
  simp only [pushY]
  split
  · next hc =>
    unfold resolvedY
    right
    simp
  · next hc =>
    unfold resolvedY
    rcases not_and_or.mp hc with h | h
    · exact Or.inl h
    · exact Or.inr (not_lt.mp h)

theorem pushY_preserves (config : LayoutConfig) (lgs : List LayoutGroup)
    (anchor : LayoutEntity) (st : List (Nat × LNode) × List LGroup)
    (b c : LayoutEntity) (h : resolvedY config c b) :
    resolvedY config c ((pushY config lgs anchor (b, st)).1) := by
  simp only [pushY]
  split
  · next hc =>
    unfold resolvedY at h ⊢
    rcases h with h | h
    · exact Or.inl (by simpa using h)
    · exact Or.inr (by simpa using le_trans h (le_of_lt hc.2))
  · exact h

theorem pushFold_out (push : LayoutEntity →
      LayoutEntity × (List (Nat × LNode) × List LGroup) →
      LayoutEntity × (List (Nat × LNode) × List LGroup))
    (anchor : LayoutEntity) (Q : LayoutEntity → Prop)
    (hq : ∀ st b, Q ((push anchor (b, st)).1)) :
    ∀ (l : List LayoutEntity)
      (acc : List LayoutEntity × (List (Nat × LNode) × List LGroup)),
      (∀ b ∈ acc.1, Q b) →
      ∀ b ∈ (l.foldl
        (fun (acc : List LayoutEntity ×
            (List (Nat × LNode) × List LGroup)) b =>
          let r := push anchor (b, acc.2)
          (acc.1 ++ [r.1], r.2)) acc).1, Q b := by
  intro l
  induction l with
  | nil =>
    intro acc hacc b hb
    exact hacc b hb
  | cons x xs ih =>
    intro acc hacc b hb
    simp only [List.foldl_cons] at hb
    refine ih _ ?_ b hb
    intro c hc
    simp only [List.mem_append, List.mem_singleton] at hc
    cases hc with
    | inl h2 => exact hacc c h2
    | inr h2 => exact h2 ▸ hq acc.2 x

theorem pushAll_out (push : LayoutEntity →
      LayoutEntity × (List (Nat × LNode) × List LGroup) →
      LayoutEntity × (List (Nat × LNode) × List LGroup))
    (anchor : LayoutEntity) (Q : LayoutEntity → Prop)
    (hq : ∀ st b, Q ((push anchor (b, st)).1))
    (rest : List LayoutEntity) (st : List (Nat × LNode) × List LGroup) :
    ∀ b ∈ (pushAll push anchor rest st).1, Q b := by
  intro b hb
  exact pushFold_out push anchor Q hq rest ([], st) (by simp) b hb

theorem pushFold_length (push : LayoutEntity →
      LayoutEntity × (List (Nat × LNode) × List LGroup) →
      LayoutEntity × (List (Nat × LNode) × List LGroup))
    (anchor : LayoutEntity) :
    ∀ (l : List LayoutEntity)
      (acc : List LayoutEntity × (List (Nat × LNode) × List LGroup)),
      ((l.foldl
        (fun (acc : List LayoutEntity ×
            (List (Nat × LNode) × List LGroup)) b =>
          let r := push anchor (b, acc.2)
          (acc.1 ++ [r.1], r.2)) acc).1).length = acc.1.length + l.length := by
  intro l
  induction l with
  | nil =>
    intro acc
    simp
  | cons x xs ih =>
    intro acc
    simp only [List.foldl_cons]
    rw [ih]
    simp only [List.length_append, List.length_cons, List.length_nil]
    omega

theorem pushAll_length (push : LayoutEntity →
      LayoutEntity × (List (Nat × LNode) × List LGroup) →
      LayoutEntity × (List (Nat × LNode) × List LGroup))
    (anchor : LayoutEntity) (rest : List LayoutEntity)
    (st : List (Nat × LNode) × List LGroup) :
    ((pushAll push anchor rest st).1).length = rest.length := by
  have := pushFold_length push anchor rest ([], st)
  simpa using this

theorem processScanF_pairwise (push : LayoutEntity →
      LayoutEntity × (List (Nat × LNode) × List LGroup) →
      LayoutEntity × (List (Nat × LNode) × List LGroup))
    (R : LayoutEntity → LayoutEntity → Prop)
    (hestab : ∀ anchor st b, R anchor ((push anchor (b, st)).1))
    (hpres : ∀ anchor st b c, R c b → R c ((push anchor (b, st)).1)) :
    ∀ (fuel : Nat) (es : List LayoutEntity)
      (st : List (Nat × LNode) × List LGroup),
      es.length ≤ fuel →
      List.Pairwise R (processScanF push fuel es st).1 := by
  intro fuel
  induction fuel with
  | zero =>
    intro es st hlen
    have he : es = [] := List.eq_nil_of_length_eq_zero (Nat.le_zero.mp hlen)
    subst he
    simp [processScanF]
  | succ fuel ih =>
    intro es st hlen
    cases es with
    | nil => simp [processScanF]
    | cons a rest =>
      simp only [processScanF]
      constructor
      · intro b hb
        exact processScanF_all push (fun b => R a b)
          (fun anchor st b hb => hpres anchor st b a hb) fuel _ _
          (pushAll_out push a (fun b => R a b)
            (fun st b => hestab a st b) rest st) b hb
      · refine ih _ _ ?_
        rw [pushAll_length]
        exact Nat.le_of_succ_le_succ hlen

theorem processScan_pairwise (push : LayoutEntity →
      LayoutEntity × (List (Nat × LNode) × List LGroup) →
      LayoutEntity × (List (Nat × LNode) × List LGroup))
    (R : LayoutEntity → LayoutEntity → Prop)
    (hestab : ∀ anchor st b, R anchor ((push anchor (b, st)).1))
    (hpres : ∀ anchor st b c, R c b → R c ((push anchor (b, st)).1))
    (es : List LayoutEntity) (st : List (Nat × LNode) × List LGroup) :
    List.Pairwise R (processScan push es st).1 :=
  processScanF_pairwise push R hestab hpres es.length es st (le_refl _)

theorem scanLoop_out (sb : LayoutEntity → LayoutEntity → Bool)
    (push : LayoutEntity →
      LayoutEntity × (List (Nat × LNode) × List LGroup) →
      LayoutEntity × (List (Nat × LNode) × List LGroup)) :
    ∀ (fuel : Nat) (es : List LayoutEntity)
      (st : List (Nat × LNode) × List LGroup), 1 ≤ fuel →
      ∃ s st0, (scanLoop sb push fuel es st).1 = (processScan push s st0).1 := by
  intro fuel
  induction fuel with
  | zero =>
    intro es st h
    omega
  | succ fuel ih =>
    intro es st _
    simp only [scanLoop]
    by_cases heq :
        (processScan push (stableSortBy sb es) st).1 = stableSortBy sb es
    · rw [if_pos heq]
      exact ⟨stableSortBy sb es, st, heq.symm⟩
    · rw [if_neg heq]
      cases Nat.eq_zero_or_pos fuel with
      | inl h0 =>
        subst h0
        exact ⟨stableSortBy sb es, st, rfl⟩
      | inr hpos => exact ih _ _ hpos

theorem scanlineResolveY_pairwise (config : LayoutConfig)
    (lgs : List LayoutGroup) (es : List LayoutEntity)
    (st : List (Nat × LNode) × List LGroup) :
    List.Pairwise (resolvedY config)
      (scanlineResolveY config lgs es st).1 := by
  unfold scanlineResolveY
  cases es with
  | nil => simp [scanLoop]
  | cons a rest =>
    obtain ⟨s, st0, heq⟩ := scanLoop_out entityBeforeY (pushY config lgs)
      ((a :: rest).length * 2) (a :: rest) st
      (by simp only [List.length_cons]; omega)
    rw [heq]
    exact processScan_pairwise (pushY config lgs) (resolvedY config)
      (fun anchor st b => pushY_establishes config lgs anchor b st)
      (fun anchor st b c hcb => pushY_preserves config lgs anchor st b c hcb)
      s st0

theorem pairwise_of_short {α : Type} (R : α → α → Prop) :
    ∀ (l : List α), l.length < 2 → List.Pairwise R l
  | [], _ => List.Pairwise.nil
  | [a], _ => by simp
  | a :: b :: rest, h => by
    simp only [List.length_cons] at h
    omega

/-- C2: after overlap resolution (the last positional stage of
`layoutGraph`), no two of the resolver's entities — top-level containers
and ungrouped, non-pinned, non-locked elements — have strictly
intersecting boxes, provided the configured gaps are non-negative.  This
is stronger than the claim (no containment-pair exemption is needed):
the Y pass leaves every ordered pair either x-separated beyond the
padded band or y-separated by at least the vertical gap. -/
theorem resolveAllOverlaps_no_intersect (state : LayoutState)
    (hh : 0 ≤ state.config.horizontalGap)
    (hv : 0 ≤ state.config.verticalGap) :
    List.Pairwise (fun a b => ¬ boxesIntersect a b)
      (resolveCore state).1 := by
  have key : ∀ a b : LayoutEntity, resolvedY state.config a b →
      ¬ boxesIntersect a b := by
    intro a b hr hi
    unfold resolvedY at hr
    unfold boxesIntersect at hi
    rcases hr with hr | hr
    · exact hr ⟨by linarith [hi.1], by linarith [hi.2.1]⟩
    · linarith [hi.2.2.2]
  simp only [resolveCore]
  split
  · next hlt => exact pairwise_of_short _ _ hlt
  · next hlt =>
    exact List.Pairwise.imp (fun h => key _ _ h)
      (scanlineResolveY_pairwise state.config state.layoutGroups _ _)

/-! ## Claim C4: layer assignment -/

theorem alGet_mem {α : Type} :
    ∀ (l : List (Nat × α)) (k : Nat) (v : α),
      alGet l k = some v → (k, v) ∈ l := by
  intro l
  induction l with
  | nil =>
    intro k v h
    simp [alGet] at h
  | cons kv rest ih =>
    intro k v h
    obtain ⟨k2, v2⟩ := kv
    by_cases heq : k2 = k
    · subst heq
      simp [alGet] at h
      subst h
      exact List.mem_cons_self _ _
    · simp only [alGet, if_neg heq] at h
      exact List.mem_cons_of_mem _ (ih k v h)

theorem layerStep_frame (nds : List (Nat × LayoutNode)) (nid x : Nat)
    (h : x ≠ nid) : alGet (layerStep nds nid) x = alGet nds x := by
  unfold layerStep
  cases hg : alGet nds nid with
  | none => rfl
  | some node => exact alGet_alSet_ne nds nid x _ (Ne.symm h)

theorem layerStep_self (nds : List (Nat × LayoutNode)) (nid : Nat) :
    alGet (layerStep nds nid) nid =
      (alGet nds nid).map
        (fun node => { node with layer := layerVal nds node }) := by
  unfold layerStep
  cases h : alGet nds nid with
  | none => simp [h]
  | some node => simp [h, alGet_alSet_eq]

theorem layerFold_frame :
    ∀ (l : List Nat) (nds : List (Nat × LayoutNode)) (x : Nat),
      x ∉ l → alGet (l.foldl layerStep nds) x = alGet nds x := by
  intro l
  induction l with
  | nil =>
    intro nds x _
    rfl
  | cons q rest ih =>
    intro nds x hx
    simp only [List.mem_cons, not_or] at hx
    simp only [List.foldl_cons]
    rw [ih _ x hx.2, layerStep_frame nds q x hx.1]

theorem layerVal_nonneg (nds : List (Nat × LayoutNode))
    (node : LayoutNode) : 0 ≤ layerVal nds node := by
  unfold layerVal
  split
  · exact le_refl 0
  · have hmono : ∀ (l : List Nat) (m : Int), m ≤ l.foldl
        (fun m predId =>
          match alGet nds predId with
          | some pred => if pred.layer ≥ 0 then max m (pred.layer + 1) else m
          | none => m) m := by
      intro l
      induction l with
      | nil =>
        intro m
        exact le_refl m
      | cons p rest ih =>
        intro m
        simp only [List.foldl_cons]
        refine le_trans ?_ (ih _)
        cases h : alGet nds p with
        | none =>
          simp only [h]
          exact le_refl m
        | some pred =>
          simp only [h]
          split
          · exact le_max_left _ _
          · exact le_refl m
    exact hmono _ 0

theorem layerFold_assigned :
    ∀ (l : List Nat) (nds : List (Nat × LayoutNode)) (p : Nat), p ∈ l →
      ∀ pn, alGet (l.foldl layerStep nds) p = some pn → 0 ≤ pn.layer := by
  intro l
  induction l with
  | nil =>
    intro nds p hp
    simp at hp
  | cons q rest ih =>
    intro nds p hp pn hget
    simp only [List.foldl_cons] at hget
    by_cases hpr : p ∈ rest
    · exact ih _ p hpr pn hget
    · have hpq : p = q := by
        rcases List.mem_cons.mp hp with h | h
        · exact h
        · exact absurd h hpr
      subst hpq
      rw [layerFold_frame rest _ p hpr, layerStep_self] at hget
      cases hg : alGet nds p with
      | none =>
        rw [hg] at hget
        simp at hget
      | some node =>
        rw [hg] at hget
        simp only [Option.map_some', Option.some.injEq] at hget
        rw [← hget]
        exact layerVal_nonneg nds node

theorem forceFold_mono :
    ∀ (l : List (Nat × LayoutNode)) (acc : List Nat) (x : Nat), x ∈ acc →
      x ∈ l.foldl
        (fun ord kv => if kv.1 ∈ ord then ord else ord ++ [kv.1]) acc := by
  intro l
  induction l with
  | nil =>
    intro acc x hx
    exact hx
  | cons kv rest ih =>
    intro acc x hx
    simp only [List.foldl_cons]
    refine ih _ x ?_
    split
    · exact hx
    · exact List.mem_append_left _ hx

theorem forceFold_mem :
    ∀ (l : List (Nat × LayoutNode)) (acc : List Nat)
      (kv : Nat × LayoutNode), kv ∈ l →
      kv.1 ∈ l.foldl
        (fun ord kv => if kv.1 ∈ ord then ord else ord ++ [kv.1]) acc := by
  intro l
  induction l with
  | nil =>
    intro acc kv hkv
    simp at hkv
  | cons kv2 rest ih =>
    intro acc kv hkv
    simp only [List.foldl_cons]
    rcases List.mem_cons.mp hkv with h | h
    · subst h
      refine forceFold_mono rest _ kv.1 ?_
      split
      · next hin => exact hin
      · exact List.mem_append_right _ (List.mem_singleton.mpr rfl)
    · exact ih _ kv h

/-- C4: layer assignment.  Every map key is force-included in the
topological order (`layerOrder`), and for any duplicate-free processing
order applied to nodes whose layers all start unassigned (negative),
`assignLayerValues` gives the node at position `i` a non-negative layer
`l` with: `l = 0` when the node has no predecessors, and otherwise `l`
the fold of `max` over `pred.layer + 1` for exactly those predecessors
assigned earlier in the order (their final layers), starting from 0 —
i.e. 1 + the maximum of the earlier-assigned predecessors' layers, or 0
when no predecessor is assigned, as the claim's residual-default states. -/
theorem assignLayers_spec (order : List Nat)
    (nodes : List (Nat × LayoutNode)) (horder : order.Nodup)
    (hneg : ∀ kv ∈ nodes, kv.2.layer < 0) :
    (∀ kv ∈ nodes, kv.1 ∈ layerOrder nodes) ∧
    (∀ i id n0, order.get? i = some id → alGet nodes id = some n0 →
      ∃ l, alGet (assignLayerValues order nodes) id =
          some { n0 with layer := l } ∧ 0 ≤ l ∧
        (n0.predecessors.length = 0 → l = 0) ∧
        (n0.predecessors.length ≠ 0 →
          l = n0.predecessors.foldl
            (fun m p =>
              if p ∈ order.take i then
                match alGet (assignLayerValues order nodes) p with
                | some pn => max m (pn.layer + 1)
                | none => m
              else m) 0)) := by
  constructor
  · intro kv hkv
    simp only [layerOrder]
    exact forceFold_mem nodes _ kv hkv
  · intro i id n0 hget hnodes
    obtain ⟨hilen, hgetel⟩ := List.get?_eq_some.mp hget
    have hdrop : order.drop i = id :: order.drop (i + 1) := by
      rw [List.drop_eq_getElem_cons hilen]
      rw [← List.get_eq_getElem order ⟨i, hilen⟩, hgetel]
    have h2 : order = order.take i ++ id :: order.drop (i + 1) := by
      rw [← hdrop, List.take_append_drop]
    have hnd : (order.take i ++ id :: order.drop (i + 1)).Nodup :=
      h2 ▸ horder
    rcases List.nodup_append.mp hnd with ⟨hnd1, hnd2, hdisj⟩
    have hid_take : id ∉ order.take i :=
      fun hmem => hdisj hmem (List.mem_cons_self _ _)
    have hid_drop : id ∉ order.drop (i + 1) := (List.nodup_cons.mp hnd2).1
    have hsplit : assignLayerValues order nodes =
        (order.drop i).foldl layerStep
          ((order.take i).foldl layerStep nodes) := by
      unfold assignLayerValues
      conv_lhs => rw [← List.take_append_drop i order]
      rw [List.foldl_append]
    have hFi_id :
        alGet ((order.take i).foldl layerStep nodes) id = alGet nodes id :=
      layerFold_frame (order.take i) nodes id hid_take
    have hA : alGet (assignLayerValues order nodes) id =
        some { n0 with
          layer := layerVal ((order.take i).foldl layerStep nodes) n0 } := by
      rw [hsplit, hdrop, List.foldl_cons,
        layerFold_frame (order.drop (i + 1)) _ id hid_drop,
        layerStep_self, hFi_id, hnodes]
      rfl
    refine ⟨layerVal ((order.take i).foldl layerStep nodes) n0, hA,
      layerVal_nonneg _ n0, ?_, ?_⟩
    · intro h0
      unfold layerVal
      rw [if_pos h0]
    · intro h0
      unfold layerVal
      rw [if_neg h0]
      refine List.foldl_ext _ _ 0 ?_
      intro m p hp
      by_cases hpt : p ∈ order.take i
      · rw [if_pos hpt]
        have hpdrop : p ∉ order.drop i := by
          rw [hdrop]
          intro hmem
          rcases List.mem_cons.mp hmem with h | h
          · exact hid_take (h ▸ hpt)
          · exact hdisj hpt (List.mem_cons_of_mem _ h)
        have hfinal_p : alGet (assignLayerValues order nodes) p =
            alGet ((order.take i).foldl layerStep nodes) p := by
          rw [hsplit]
          exact layerFold_frame (order.drop i) _ p hpdrop
        rw [hfinal_p]
        cases hgp : alGet ((order.take i).foldl layerStep nodes) p with
        | none => simp
        | some pn =>
          have hnn : 0 ≤ pn.layer :=
            layerFold_assigned (order.take i) nodes p hpt pn hgp
          simp [hnn]
      · rw [if_neg hpt]
        rw [layerFold_frame (order.take i) nodes p hpt]
        cases hgp : alGet nodes p with
        | none => simp
        | some pn =>
          have hmem := alGet_mem nodes p pn hgp
          have hlt : pn.layer < 0 := hneg (p, pn) hmem
          simp [not_le.mpr hlt]

unseal Rat.add Rat.sub Rat.mul Rat.inv in
/-- C4 witness: the assignment characterization at the two-node witness
state `1 → 2` with unassigned layers. -/
theorem c4_witness :
    (layerOrder c4State.nodes).Nodup ∧
    (∀ kv ∈ c4State.nodes, kv.2.layer < 0) ∧
    (∀ kv ∈ c4State.nodes, kv.1 ∈ layerOrder c4State.nodes) :=
  ⟨by decide, by decide,
    (assignLayers_spec (layerOrder c4State.nodes) c4State.nodes
      (by decide) (by decide)).1⟩

unseal Rat.add Rat.sub Rat.mul Rat.inv in
/-- C2 witness: the resolution invariant at the two-node witness state
(two overlapping ungrouped nodes, one disconnected). -/
theorem c2_witness :
    (0 : ℚ) ≤ cwState.config.horizontalGap ∧
    (0 : ℚ) ≤ cwState.config.verticalGap ∧
    List.Pairwise (fun a b => ¬ boxesIntersect a b)
      (resolveCore cwState).1 :=
  ⟨by decide, by decide,
    resolveAllOverlaps_no_intersect cwState (by decide) (by decide)⟩

end NodeOrganizer
